import Mathlib

/-!
# Verification of the hybrid-table SQL analysis core

Shallow embedding, in Lean 4, of the analysis core of the repository:

* `sql_analysis/coverage.py` (hybrid-table-query-analyzer): predicate
  normalization and index-coverage scoring;
* `sql_analysis/rules_enhanced.py`: enhanced rule checks and primary-cause
  ranking over finding records;
* `ht_analyzer/snowvi_features.py`: the deterministic two-run root-cause
  classifier;
* `sql_analysis/rules.py`, `rules_ht_dml.py`, `rules_ht_payload.py`,
  `rules_stored_proc.py` (unistore-query-analyzer): the rule engine.

Python `dict`s are embedded as insertion-ordered association lists
(`List (String × α)`) with Python's update semantics (an existing key keeps
its position, a new key is appended).  Numeric telemetry is embedded as `ℚ`.
Strings are embedded as `String`; Python truthiness of a string is
non-emptiness.  sqlglot AST nodes are abstracted by records carrying exactly
the data the analysed functions extract from them.
-/

set_option maxHeartbeats 1000000

namespace HTAnalysis

/-! ## String helpers mirroring the Python string methods used by the source -/

/-- Python `s.strip(c)` for a single strip character: drop leading and
trailing runs of `c`. -/
def stripChar (c : Char) (s : String) : String :=
  String.mk (((s.data.dropWhile (fun x => x == c)).reverse.dropWhile
    (fun x => x == c)).reverse)

/-- Python `s.strip('"')`. -/
def stripQuotes (s : String) : String := stripChar '"' s

/-- Python `s.strip()` (whitespace strip). -/
def pyStrip (s : String) : String :=
  String.mk (((s.data.dropWhile Char.isWhitespace).reverse.dropWhile
    Char.isWhitespace).reverse)

/-- Python `s.upper()` (the source only upper-cases ASCII SQL text). -/
def pyUpper (s : String) : String := String.mk (s.data.map Char.toUpper)

/-- Python `s.lower()`. -/
def pyLower (s : String) : String := String.mk (s.data.map Char.toLower)

/-- Python `s.split(".")[-1]`: the suffix after the last dot (the whole
string when no dot occurs). -/
def lastDotPart (s : String) : String :=
  String.mk (s.data.foldl (fun acc c => if c = '.' then [] else acc ++ [c]) [])

/-- `needle` occurs as a contiguous sublist of the second argument
(Python `needle in hay` on the character lists). -/
def listContainsSub (n : List Char) : List Char → Bool
  | [] => n.isEmpty
  | c :: t => n.isPrefixOf (c :: t) || listContainsSub n t

/-- Python `needle in hay` for strings. -/
def strContains (hay needle : String) : Bool :=
  listContainsSub needle.data hay.data

/-- Insertion-ordered dict update (Python `d[k] = v`): an existing key keeps
its position and gets the new value, a missing key is appended. -/
def dictInsert {α : Type} : List (String × α) → String → α → List (String × α)
  | [], k, v => [(k, v)]
  | (k', v') :: rest, k, v =>
    if k' = k then (k, v) :: rest else (k', v') :: dictInsert rest k v

/-- Dict lookup (Python `d.get(k)`): first binding of the key. -/
def dictGet? {α : Type} (d : List (String × α)) (k : String) : Option α :=
  match d with
  | [] => none
  | (k', v) :: rest => if k' = k then some v else dictGet? rest k

/-! ## `sql_analysis/coverage.py` (hybrid-table-query-analyzer) -/

namespace Coverage

/-- One predicate dict produced by `sql_analysis/parser.py`
(`{"left": ..., "right": ..., "op": ..., "raw": ...}`, with an optional
`"source"` tag for JOIN-ON predicates). -/
structure Pred where
  left : String
  right : String
  op : String
  raw : String
  source : Option String := none
  deriving DecidableEq, Repr

/-- The two operation classes `_normalize_predicates` stores in its map. -/
inductive ColOp
  | EQ
  | RANGE
  deriving DecidableEq, Repr

/-- Loop body of `_normalize_predicates` (coverage.py lines 21-35): classify
one predicate and write it into the column map (Python dict assignment, so a
later predicate on the same column overwrites the earlier entry). -/
def normStep (colOps : List (String × ColOp)) (p : Pred) : List (String × ColOp) :=
  let op := pyUpper p.op
  if p.left = "" then colOps
  else
    let col := stripQuotes (lastDotPart p.left)
    if op = "EQ" ∨ op = "EQUAL" then dictInsert colOps col ColOp.EQ
    else if ["GT", "LT", "GTE", "LTE", "BETWEEN", "LIKE", "IN", "NEQ",
        "NOT_EQ"].contains op then dictInsert colOps col ColOp.RANGE
    else colOps

/-- `_normalize_predicates` (coverage.py lines 10-37): normalize predicates to
a column → EQ/RANGE map. -/
def normalizePredicates (preds : List Pred) : List (String × ColOp) :=
  preds.foldl normStep []

/-- The double lookup `pred_ops.get(col) or pred_ops.get(col.strip('"'))`
from `_eq_prefix_for_index`. -/
def predOpFor (predOps : List (String × ColOp)) (col : String) : Option ColOp :=
  match dictGet? predOps col with
  | some v => some v
  | none => dictGet? predOps (stripQuotes col)

/-- Loop body of `_eq_prefix_for_index` (coverage.py lines 39-67); `i` is the
enumeration index, `eq` the running equality counter.  Returns
`(eq_prefix, first_range_position)`. -/
def eqPfxAux (predOps : List (String × ColOp)) :
    List String → Nat → Nat → Nat × Option Nat
  | [], _, eq => (eq, none)
  | c :: rest, i, eq =>
    match predOpFor predOps c with
    | some ColOp.EQ => eqPfxAux predOps rest (i + 1) (eq + 1)
    | some ColOp.RANGE => (eq, some i)
    | none => (eq, none)

/-- `_eq_prefix_for_index(pred_ops, index_cols)`. -/
def eqPrefixForIndex (predOps : List (String × ColOp)) (indexCols : List String) :
    Nat × Option Nat :=
  eqPfxAux predOps indexCols 0 0

/-- Per-table metadata record (`TableMetadata`): the keys of the `info` dict
that coverage scoring reads. -/
structure TableInfo where
  pk : List String := []
  indexes : List (List String) := []
  is_hybrid : Bool := false
  columns : List (String × String) := []
  deriving DecidableEq, Repr

/-- One coverage row, as assembled at coverage.py lines 131-142.  The
`index_metadata_source` key is absent (`none`) in rows produced by the
scorer; the snowvi enrichment step may set it. -/
structure CoverageRow where
  table : String
  is_hybrid : Bool
  pk : List String
  indexes : List (List String)
  best_index : Option (List String)
  best_eq_pfx : Nat
  first_range_position : Option Nat
  order_by_pfx : Nat
  pk_eq_pfx : Nat
  pred_eq_cols : List String
  index_metadata_source : Option String := none
  deriving DecidableEq, Repr

/-- One step of the best-index selection loop of `score_indexes_for_tables`
(coverage.py lines 113-120). -/
def bestStep (predOps : List (String × ColOp))
    (acc : Int × Option (List String) × Option Nat) (idx : List String) :
    Int × Option (List String) × Option Nat :=
  let (eqp, fr) := eqPrefixForIndex predOps idx
  if (eqp : Int) > acc.1 then ((eqp : Int), some idx, fr) else acc

/-- The best-index selection loop of `score_indexes_for_tables`
(coverage.py lines 109-120): running best equality count starts at `-1`. -/
def bestLoop (predOps : List (String × ColOp)) (indexes : List (List String)) :
    Int × Option (List String) × Option Nat :=
  indexes.foldl (bestStep predOps) (-1, none, none)

/-- The ORDER BY alignment loop (coverage.py lines 123-129). -/
def orderPfxAux (bestIdx : List String) : List String → Nat → Nat
  | [], _ => 0
  | c :: rest, i =>
    match bestIdx.get? i with
    | some b =>
      if pyLower (stripQuotes c) = pyLower (stripQuotes b) then
        1 + orderPfxAux bestIdx rest (i + 1)
      else 0
    | none => 0

/-- Candidate index list: primary key (when present) prepended to the
declared secondary indexes (coverage.py lines 99-103). -/
def candidateIndexes (info : TableInfo) : List (List String) :=
  (if info.pk ≠ [] then [info.pk] else []) ++ info.indexes

/-- Per-table body of `score_indexes_for_tables` (coverage.py lines 96-142). -/
def scoreTable (predOps : List (String × ColOp)) (orderCols : List String)
    (table : String) (info : TableInfo) : CoverageRow :=
  let pk := info.pk
  let indexes := candidateIndexes info
  let pkPair := eqPrefixForIndex predOps pk
  let (best, bestIdx, bestFirstRange) := bestLoop predOps indexes
  let orderPfx :=
    match bestIdx with
    | some bi =>
      if orderCols ≠ [] ∧ bi ≠ [] then orderPfxAux bi orderCols 0 else 0
    | none => 0
  { table := table
    is_hybrid := info.is_hybrid
    pk := pk
    indexes := indexes
    best_index := bestIdx
    best_eq_pfx := (max best 0).toNat
    first_range_position := bestFirstRange
    order_by_pfx := orderPfx
    pk_eq_pfx := pkPair.1
    pred_eq_cols := predOps.filterMap
      (fun cv => if cv.2 = ColOp.EQ then some cv.1 else none)
    index_metadata_source := none }

/-- The slice of `ParsedQuery` that coverage scoring reads. -/
structure ParsedQueryCov where
  predicates : List Pred := []
  order_by : List (String × String) := []
  deriving Repr

/-- `score_indexes_for_tables(pq, meta)` (coverage.py lines 69-144). -/
def scoreIndexesForTables (pq : ParsedQueryCov) (meta : List (String × TableInfo)) :
    List CoverageRow :=
  let orderCols := pq.order_by.map Prod.fst
  let predOps := normalizePredicates pq.predicates
  meta.map (fun ti => scoreTable predOps orderCols ti.1 ti.2)

/-! ### Derived views of the normalization loop, used by the theorems below -/

/-- The per-predicate classification performed inside the
`_normalize_predicates` loop: the column/class pair written to the map, if
any. -/
def classifyPred (p : Pred) : Option (String × ColOp) :=
  let op := pyUpper p.op
  if p.left = "" then none
  else
    let col := stripQuotes (lastDotPart p.left)
    if op = "EQ" ∨ op = "EQUAL" then some (col, ColOp.EQ)
    else if ["GT", "LT", "GTE", "LTE", "BETWEEN", "LIKE", "IN", "NEQ",
        "NOT_EQ"].contains op then some (col, ColOp.RANGE)
    else none

/-- The class of the last predicate in list order that writes to `col`. -/
def lastClassFor (preds : List Pred) (col : String) : Option ColOp :=
  preds.foldl
    (fun acc p =>
      match classifyPred p with
      | some cv => if cv.1 = col then some cv.2 else acc
      | none => acc)
    none

/-- Concrete example predicate `a = 1`, used by witness instantiations. -/
def exPred1 : Pred := { left := "a", right := "1", op := "EQ", raw := "a = 1" }

/-- Concrete example query with the single predicate `a = 1`. -/
def exPQ1 : ParsedQueryCov := { predicates := [exPred1] }

/-- Concrete example hybrid table with PK `(a)` and secondary index `(b)`. -/
def exInfo1 : TableInfo := { pk := ["a"], indexes := [["b"]], is_hybrid := true }

/-- Concrete example metadata map holding only `exInfo1`. -/
def exMeta1 : List (String × TableInfo) := [("t", exInfo1)]

end Coverage

/-! ## `ht_analyzer/snowvi_features.py`: the two-run root-cause classifier

Telemetry values are floats in the source; they are embedded as `ℚ`.  A
missing metric is read as `fa.get(key) or 0.0` by the source, so feature
fields default to `0`.  A missing SQL hash is the empty string (Python
string falsiness).  `float('inf')` ratios are embedded as `none`. -/

namespace Snowvi

/-- One entry of the `hot_rsos` list: the two keys `classify_run_pair`
reads from it. -/
structure RSO where
  name : String := ""
  time_ms : Rat := 0
  deriving DecidableEq, Repr

/-- The feature fields of one execution that `classify_run_pair` reads. -/
structure FeatureVec where
  sanitized_sql_hash : String := ""
  total_ms : Rat := 0
  xp_ms : Rat := 0
  gs_exec_ms : Rat := 0
  gs_compile_ms : Rat := 0
  kv_rows_scanned : Rat := 0
  snowtram_kvs_txn : Rat := 0
  fdb_total_ms : Rat := 0
  fdb_num_txn : Rat := 0
  rows_produced : Rat := 0
  bytes_scanned : Rat := 0
  plan_cache_reused : Bool := false
  xp_share : Rat := 0
  hot_rsos : List RSO := []
  deriving DecidableEq, Repr

/-- One row of the metric-delta report (`diff[key]`,
snowvi_features.py lines 704-710). -/
structure DiffEntry where
  a : Rat
  b : Rat
  delta : Rat
  pct : Rat
  increased : Bool
  deriving DecidableEq, Repr

/-- The metric keys compared by `classify_run_pair`
(snowvi_features.py lines 694-698). -/
def metricsToCompare : List String :=
  ["total_ms", "xp_ms", "gs_exec_ms", "gs_compile_ms", "kv_rows_scanned",
   "snowtram_kvs_txn", "fdb_total_ms", "fdb_num_txn", "rows_produced",
   "bytes_scanned"]

/-- `fa.get(key) or 0.0` for the compared metric keys. -/
def metricValue (f : FeatureVec) (key : String) : Rat :=
  if key = "total_ms" then f.total_ms
  else if key = "xp_ms" then f.xp_ms
  else if key = "gs_exec_ms" then f.gs_exec_ms
  else if key = "gs_compile_ms" then f.gs_compile_ms
  else if key = "kv_rows_scanned" then f.kv_rows_scanned
  else if key = "snowtram_kvs_txn" then f.snowtram_kvs_txn
  else if key = "fdb_total_ms" then f.fdb_total_ms
  else if key = "fdb_num_txn" then f.fdb_num_txn
  else if key = "rows_produced" then f.rows_produced
  else if key = "bytes_scanned" then f.bytes_scanned
  else 0

/-- One diff row (snowvi_features.py lines 700-710). -/
def mkDiffEntry (a b : Rat) : DiffEntry :=
  { a := a
    b := b
    delta := b - a
    pct := if a > 0 then ((b - a) / max a 1) * 100 else if b > 0 then 100 else 0
    increased := decide (b > a) }

/-- The diff dict built over all compared metrics. -/
def buildDiff (fa fb : FeatureVec) : List (String × DiffEntry) :=
  metricsToCompare.foldl
    (fun d key => dictInsert d key (mkDiffEntry (metricValue fa key) (metricValue fb key)))
    []

/-- `diff[key]["delta"]` (keys of `buildDiff` always exist; `0` default keeps
the function total). -/
def getDelta (diff : List (String × DiffEntry)) (key : String) : Rat :=
  match dictGet? diff key with
  | some e => e.delta
  | none => 0

/-- The KV row / txn ratio computation (snowvi_features.py lines 753-769):
`b / a` when both positive, `float('inf')` (here `none`) when only `b` is
positive, else `1.0`. -/
def pyDivRat (a b : Rat) : Option Rat :=
  if a > 0 ∧ b > 0 then some (b / a)
  else if b > 0 then none
  else some 1

/-- `ratio > 2.0` under IEEE semantics for `inf`. -/
def ratGtTwo : Option Rat → Bool
  | none => true
  | some q => decide (q > 2)

/-- `0.5 <= ratio <= 2.0` under IEEE semantics for `inf`. -/
def ratWithinHalfTwo : Option Rat → Bool
  | none => false
  | some q => decide (0.5 ≤ q ∧ q ≤ 2)

/-- The 5d join-explosion scan over `hot_rsos_b`
(snowvi_features.py lines 796-799).  `xpB?` is `none` when the Python local
`xp_b` is unbound on this path (it is assigned only inside the 5b block, so
reading it there raises `NameError`, modelled as the scan returning
`none`); `some true` means a dominant HashJoin RSO was found. -/
def scanHotRsos (xpB? : Option Rat) : List RSO → Option Bool
  | [] => some false
  | rso :: rest =>
    if strContains rso.name "HashJoin" then
      match xpB? with
      | none => none
      | some xpB =>
        if rso.time_ms > 0.5 * xpB then some true else scanHotRsos xpB? rest
    else scanHotRsos xpB? rest

/-- `classify_run_pair(features_a, features_b)`
(snowvi_features.py lines 670-805): ordered decision list returning
`(primary_cause, secondary_cause, diff)`.  The result is `none` exactly when
the source would raise `NameError` (5d reached with `xp_b` unbound, see
`scanHotRsos`). -/
def classifyRunPair (fa fb : FeatureVec) :
    Option (String × String × List (String × DiffEntry)) :=
  let diff := buildDiff fa fb
  -- 1) Different SQL hash → QUERY_CHANGE
  if fa.sanitized_sql_hash ≠ "" ∧ fb.sanitized_sql_hash ≠ "" ∧
      fa.sanitized_sql_hash ≠ fb.sanitized_sql_hash then
    some ("QUERY_CHANGE", "", diff)
  else
    -- 2) total_ms essentially the same (within 20%) → NO_REGRESSION
    if fa.total_ms > 0 ∧ |getDelta diff "total_ms"| ≤ 0.2 * fa.total_ms then
      some ("NO_REGRESSION", "", diff)
    else
      -- 3) compilation time exploded (>50% of baseline total) → COMPILATION
      if getDelta diff "gs_compile_ms" > 0.5 * max fa.total_ms 1 then
        some ("COMPILATION", "", diff)
      else
        -- 4) plan cache hit vs miss → secondary cause
        let secondary :=
          if fa.plan_cache_reused ∧ ¬ fb.plan_cache_reused then "PLAN_CACHE"
          else ""
        -- 5) XP-dominated execution
        let step5 :=
          if fa.xp_share > 0.5 ∨ fb.xp_share > 0.5 then
            let kvRat := pyDivRat fa.kv_rows_scanned fb.kv_rows_scanned
            let txnRat := pyDivRat fa.snowtram_kvs_txn fb.snowtram_kvs_txn
            -- 5a) big KV row increase (>2x) → DATA_VOLUME
            if ratGtTwo kvRat then some (some ("DATA_VOLUME", secondary, diff))
            else
              let inBand := ratWithinHalfTwo kvRat && ratWithinHalfTwo txnRat
              -- 5b) similar KV work: FDB latency vs execution environment
              let fiveB :=
                if inBand then
                  if fb.fdb_total_ms > 3 * max fa.fdb_total_ms 1 ∧
                      fb.fdb_total_ms > 0.3 * max fb.xp_ms 1 then
                    some ("FDB_LATENCY", secondary, diff)
                  else if fb.xp_ms > 2 * max fa.xp_ms 1 then
                    some ("XP_EXECUTION_ENVIRONMENT", secondary, diff)
                  else none
                else none
              match fiveB with
              | some r => some (some r)
              | none =>
                -- 5d) join explosion from hot RSOs (xp_b bound only when
                -- the 5b block executed)
                let xpB? := if inBand then some fb.xp_ms else none
                match scanHotRsos xpB? fb.hot_rsos with
                | none => some none
                | some true => some (some ("JOIN_SKEW_OR_EXPLOSION", secondary, diff))
                | some false => none
          else none
        match step5 with
        | some r => r
        | none =>
          -- fallback: generic XP execution issue
          if getDelta diff "xp_ms" > 0.5 * max fa.total_ms 1 then
            some ("XP_EXECUTION", secondary, diff)
          else some ("UNKNOWN", secondary, diff)

/-- Concrete baseline run for the C2 counterexample: zero total duration,
hash present. -/
def cexFa : FeatureVec := { sanitized_sql_hash := "h" }

/-- Concrete comparison run for the C2 counterexample: compile-phase delta
`0.3`, which exceeds 50% of the baseline total duration (`0`) but not 50% of
`max(total_a, 1.0)`. -/
def cexFb : FeatureVec := { sanitized_sql_hash := "h", gs_compile_ms := 0.3 }

/-- Two runs with different SQL hashes, for the C2 witness. -/
def cexFc : FeatureVec := { sanitized_sql_hash := "k", total_ms := 5 }

end Snowvi

/-! ## More string/list helpers used by the rule engines -/

/-- Python `sep.join(parts)`. -/
def pyJoin (sep : String) : List String → String
  | [] => ""
  | [x] => x
  | x :: xs => x ++ sep ++ pyJoin sep xs

/-- Python `s[:n]` on a string. -/
def strTake (n : Nat) (s : String) : String := String.mk (s.data.take n)

/-- Python `s.startswith(pre)`. -/
def strStartsWith (s pre : String) : Bool := pre.data.isPrefixOf s.data

/-- Python `repr` of a list of strings, as produced by f-string formatting of
a `list` value: `['a', 'b']`. -/
def pyReprStrList (l : List String) : String :=
  "[" ++ pyJoin ", " (l.map (fun s => "'" ++ s ++ "'")) ++ "]"

/-- Left-pad with zeros to width `w`. -/
def padZeros (w : Nat) (s : String) : String :=
  String.mk (List.replicate (w - s.length) '0') ++ s

/-- Fixed-point rendering of a rational with `prec` decimals, modelling
Python's `format(x, '.<prec>f')` (ties, which Python rounds half-even on the
underlying float, are rounded by `round`; no input of this development hits
a tie). -/
def fmtFixed (prec : Nat) (q : Rat) : String :=
  let m : Int := round (q * (10 : Rat) ^ prec)
  let sign := if m < 0 then "-" else ""
  let n := m.natAbs
  let ip := n / 10 ^ prec
  let fp := n % 10 ^ prec
  sign ++ toString ip ++
    (if prec = 0 then "" else "." ++ padZeros prec (toString fp))

/-- Chunks of three, taken from the front. -/
def chunk3 : List Char → List (List Char)
  | a :: b :: c :: rest => [a, b, c] :: chunk3 rest
  | [] => []
  | [a] => [[a]]
  | [a, b] => [[a, b]]

/-- Python `f"{n:,}"` for an integer: digits grouped in threes from the
right. -/
def fmtComma (n : Int) : String :=
  let groups := ((chunk3 (toString n.natAbs).data.reverse).map
    (fun g => String.mk g.reverse)).reverse
  (if n < 0 then "-" else "") ++ pyJoin "," groups

/-- Stable insert for a descending sort: `x` goes after every element with a
key ≥ its own. -/
def insertByDesc {α : Type} (key : α → Int) (x : α) : List α → List α
  | [] => [x]
  | y :: ys => if key y ≥ key x then y :: insertByDesc key x ys else x :: y :: ys

/-- Stable descending sort by an integer key.  Python's `list.sort`/`sorted`
with `reverse=True` is stable, and a stable sort by a key is unique, so this
insertion formulation is extensionally the source's sort. -/
def sortByDesc {α : Type} (key : α → Int) (l : List α) : List α :=
  l.foldl (fun acc x => insertByDesc key x acc) []

/-- Stable insert for an ascending string sort. -/
def insertStrAsc (x : String) : List String → List String
  | [] => [x]
  | y :: ys => if y ≤ x then y :: insertStrAsc x ys else x :: y :: ys

/-- Ascending string sort (Python `sorted` on strings). -/
def sortStrAsc (l : List String) : List String :=
  l.foldl (fun acc x => insertStrAsc x acc) []

/-- Worker for `dedupFirst`, carrying the already-seen elements. -/
def dedupAux (seen : List String) : List String → List String
  | [] => []
  | x :: xs =>
    if seen.contains x then dedupAux seen xs
    else x :: dedupAux (x :: seen) xs

/-- First-occurrence deduplication, modelling iteration over a Python `set`
built by successive `update`s (`set` iteration order is implementation
defined; the claims below never depend on it). -/
def dedupFirst (l : List String) : List String := dedupAux [] l

/-! ## `sql_analysis/rules_enhanced.py` (hybrid-table-query-analyzer)

Findings in this module are loosely-typed Python dicts (the module also
mutates one of them in `rank_primary_cause`), so they are embedded as
association lists over a value union `FVal`. -/

namespace RulesEnh

open Coverage

/-- Value union for finding-dict values. -/
inductive FVal
  | S (s : String)
  | B (b : Bool)
  | I (n : Int)
  | N
  | LS (l : List String)
  | LLS (l : List (List String))
  deriving DecidableEq, Repr

/-- A finding dict. -/
abbrev Finding := List (String × FVal)

/-- Python truthiness of a dict value (`f.get(k)` with a missing key being
`None`). -/
def fvTruthy : Option FVal → Bool
  | some (FVal.S s) => s ≠ ""
  | some (FVal.B b) => b
  | some (FVal.I n) => n ≠ 0
  | some FVal.N => false
  | some (FVal.LS l) => l ≠ []
  | some (FVal.LLS l) => l ≠ []
  | none => false

/-- `f.get(key, default)` when a string is expected. -/
def getStr (f : Finding) (key dflt : String) : String :=
  match dictGet? f key with
  | some (FVal.S s) => s
  | _ => dflt

/-- `f.get(key)` when a string list is expected (`[]` otherwise). -/
def getLS (f : Finding) (key : String) : List String :=
  match dictGet? f key with
  | some (FVal.LS l) => l
  | _ => []

/-- The runtime-metric keys read by this module.  Counters are integers in
the warehouse metadata; `None` models a missing key. -/
structure RuntimeMetrics where
  access_kv_table : Bool := false
  rows_produced : Option Int := none
  bytes_scanned : Option Int := none
  spill_remote_bytes : Option Int := none
  spill_local_bytes : Option Int := none
  fdb_throttling_ms : Option Int := none
  deriving DecidableEq, Repr

/-- The slice of `ParsedQuery` read by `analyze_query_enhanced`; the sqlglot
AST is abstracted by the list of WITH-clause aliases that
`_extract_cte_names` walks out of it. -/
structure ParsedQueryEnh where
  predicates : List Pred := []
  order_by : List (String × String) := []
  limit : Option Int := none
  select_cols : List String := []
  cte_aliases : List String := []
  deriving DecidableEq, Repr

/-- `_extract_cte_names(pq)` (rules_enhanced.py lines 433-448): the set of
upper-cased, quote-stripped CTE aliases (membership queries only). -/
def extractCteNames (pq : ParsedQueryEnh) : List String :=
  pq.cte_aliases.map (fun a => pyUpper (stripQuotes a))

/-- `generate_index_ddl` (rules_enhanced.py lines 17-90). -/
def generate_index_ddl (table : String) (pred_eq_cols : List String)
    (first_range_col : Option String) (select_cols : List String)
    (rows_produced : Option Int) (include_clause : Bool) : String :=
  if pred_eq_cols = [] then ""
  else
    let key_cols := pred_eq_cols ++
      (match first_range_col with
       | some c => if c ≠ "" ∧ ¬ pred_eq_cols.contains c then [c] else []
       | none => [])
    let table_name := pyLower (stripQuotes (lastDotPart table))
    let col_suffix := pyJoin "_"
      ((key_cols.take 3).map (fun c => strTake 12 (pyLower (stripQuotes c))))
    let index_name := strTake 63 ("idx_" ++ table_name ++ "_" ++ col_suffix)
    let key_list := pyJoin ", "
      (key_cols.map (fun c => if ¬ strStartsWith c "\"" then "\"" ++ c ++ "\"" else c))
    let ddl := "CREATE INDEX " ++ index_name ++ "\nON " ++ table ++ " (" ++ key_list ++ ")"
    let ddl :=
      if include_clause ∧ rows_produced.isSome ∧ rows_produced.getD 0 < 5000 then
        let key_set := key_cols.map (fun c => pyLower (stripQuotes c))
        let include_cols := select_cols.filter (fun col =>
          ¬ pyStrip col = "*" ∧ ¬ strContains col "(" ∧ ¬ strContains col ")" ∧
          ¬ key_set.contains (pyLower (stripQuotes (lastDotPart col))))
        if include_cols ≠ [] ∧ include_cols.length ≤ 10 then
          ddl ++ "\nINCLUDE (" ++ pyJoin ", "
            ((include_cols.take 10).map
              (fun c => if ¬ strStartsWith c "\"" then "\"" ++ c ++ "\"" else c)) ++ ")"
        else ddl
      else ddl
    ddl ++ ";"

/-- Per-table body of `check_no_index_coverage` (rules_enhanced.py lines
121-195), already under `access_kv_table = true` (the function returns
early otherwise). -/
def checkNoIdxEntry (access_kv_table : Bool) (cte_names : List String)
    (entry : CoverageRow) : List Finding :=
  let table := entry.table
  if cte_names.contains (pyUpper (stripQuotes (lastDotPart table))) then []
  else if ¬ (entry.is_hybrid || access_kv_table) then []
  else
    let pred_eq_cols := entry.pred_eq_cols
    let indexes := entry.indexes
    let index_source := entry.index_metadata_source.getD "unknown"
    if indexes = [] ∧ pred_eq_cols ≠ [] then
      if index_source = "unknown" then
        [[("severity", FVal.S "INFO"),
          ("rule", FVal.S "INDEX_METADATA_UNKNOWN"),
          ("message", FVal.S ("HT table '" ++ table ++
            "': Query filters/joins on columns [" ++
            pyJoin ", " (pred_eq_cols.take 5) ++
            "] but index metadata was not available in SnowVI export. " ++
            "Cannot determine if indexes exist.")),
          ("suggestion", FVal.S ("Check actual table DDL with SHOW INDEXES " ++
            "or DESC TABLE to see if indexes exist. If no indexes, consider " ++
            "creating one on the predicate columns.")),
          ("table", FVal.S table),
          ("pred_eq_cols", FVal.LS pred_eq_cols),
          ("has_indexes", FVal.N)]]
      else
        [[("severity", FVal.S "HIGH"),
          ("rule", FVal.S "NO_INDEX_COVERAGE_ON_PREDICATES"),
          ("message", FVal.S ("HT table '" ++ table ++
            "': Zero indexes but query filters/joins on columns: [" ++
            pyJoin ", " (pred_eq_cols.take 5) ++
            "]. Without index support, every access scans the KV store row-by-row.")),
          ("suggestion", FVal.S ("CREATE INDEX idx_" ++
            pyLower (lastDotPart table) ++ "_optimized ON " ++ table ++ " (" ++
            pyJoin ", " (pred_eq_cols.take 5) ++ "); " ++
            "Order columns by selectivity (most selective first). " ++
            "This typically provides 5-50x speedup.")),
          ("table", FVal.S table),
          ("pred_eq_cols", FVal.LS pred_eq_cols),
          ("has_indexes", FVal.B false)]]
    else if indexes ≠ [] ∧ entry.best_eq_pfx = 0 ∧ pred_eq_cols ≠ [] then
      [[("severity", FVal.S "HIGH"),
        ("rule", FVal.S "NO_INDEX_COVERAGE_ON_PREDICATES"),
        ("message", FVal.S ("HT table '" ++ table ++ "': Equality predicates on " ++
          pyReprStrList pred_eq_cols ++
          " don't align with leftmost columns of existing indexes (which start with " ++
          pyReprStrList (indexes.map (fun idx => idx.headD "?")) ++
          "). Query will do full scan or expensive probe.")),
        ("suggestion", FVal.S ("Create new index OR reorder existing index to start with: " ++
          pyReprStrList pred_eq_cols ++ ". Put most selective column first.")),
        ("table", FVal.S table),
        ("pred_eq_cols", FVal.LS pred_eq_cols),
        ("has_indexes", FVal.B true),
        ("existing_index_starts", FVal.LS (indexes.map (fun idx => idx.headD "?")))]]
    else []

/-- `check_no_index_coverage(coverage, access_kv_table, cte_names)`
(rules_enhanced.py lines 93-197). -/
def check_no_index_coverage (coverage : List CoverageRow)
    (access_kv_table : Bool) (cte_names : List String) : List Finding :=
  if ¬ access_kv_table then []
  else coverage.flatMap (checkNoIdxEntry access_kv_table cte_names)

/-- `check_order_by_limit_conditional` (rules_enhanced.py lines 200-256). -/
def check_order_by_limit_conditional (pq : ParsedQueryEnh)
    (rows_produced : Option Int) (coverage : List CoverageRow)
    (access_kv_table : Bool) : Option Finding :=
  if pq.order_by = [] ∨ pq.limit ≠ none then none
  else
    match rows_produced with
    | none => none
    | some rp =>
      if rp ≤ 10000 then none
      else
        let order_str := pyJoin ", " (pq.order_by.map Prod.fst)
        if access_kv_table ∧
            coverage.any (fun e => e.is_hybrid && decide (e.order_by_pfx > 0)) then
          some [("severity", FVal.S "HIGH"),
            ("rule", FVal.S "ORDER_BY_NO_LIMIT"),
            ("message", FVal.S ("ORDER BY [" ++ order_str ++
              "] on HT index without LIMIT will sort " ++ fmtComma rp ++
              " rows. Top-K optimization is possible but not enabled.")),
            ("suggestion", FVal.S ("Add LIMIT to enable top-K index optimization. " ++
              "For HT, ORDER BY on PK/index + LIMIT allows early termination.")),
            ("rows_produced", FVal.I rp)]
        else
          some [("severity", FVal.S "MEDIUM"),
            ("rule", FVal.S "ORDER_BY_NO_LIMIT"),
            ("message", FVal.S ("ORDER BY [" ++ order_str ++
              "] without LIMIT will sort " ++ fmtComma rp ++ " rows.")),
            ("suggestion", FVal.S ("Add LIMIT to reduce sort cost, or use seek " ++
              "pagination on indexed columns.")),
            ("rows_produced", FVal.I rp)]

/-- `check_mixed_ht_standard_tables` (rules_enhanced.py lines 259-316). -/
def check_mixed_ht_standard_tables (coverage : List CoverageRow)
    (cte_names : List String) : Option Finding :=
  if coverage = [] then none
  else
    let relevant := coverage.filter
      (fun cov => ¬ cte_names.contains (pyUpper (stripQuotes (lastDotPart cov.table))))
    let ht_tables := (relevant.filter (fun c => c.is_hybrid)).map (fun c => c.table)
    let std_tables := (relevant.filter (fun c => ¬ c.is_hybrid)).map (fun c => c.table)
    if ht_tables ≠ [] ∧ std_tables ≠ [] then
      some [("severity", FVal.S "MEDIUM"),
        ("rule", FVal.S "MIXED_HT_AND_STANDARD_TABLES"),
        ("message", FVal.S ("Query mixes " ++ toString ht_tables.length ++
          " Hybrid Table(s) with " ++ toString std_tables.length ++
          " standard table(s). Overall latency will be dominated by standard " ++
          "table scans, not HT point lookups.")),
        ("suggestion", FVal.S ("Treat this as a standard analytical query for " ++
          "performance expectations. Scale warehouse for standard table scans. " ++
          "HT benefits are limited to indexed point-lookup portions of the " ++
          "query. Consider migrating frequently-joined standard tables to HT, " ++
          "or splitting the workload into HT-only OLTP and standard analytics.")),
        ("ht_tables", FVal.LS ht_tables),
        ("std_tables", FVal.LS std_tables)]
    else none

/-- Severity rank used by `rank_primary_cause` when no runtime metrics are
supplied (rules_enhanced.py line 343): `severity_order.get(sev, 0)`. -/
def sevOrder (f : Finding) : Int :=
  let s := getStr f "severity" "INFO"
  if s = "HIGH" then 3
  else if s = "MEDIUM" then 2
  else if s = "LOW" then 1
  else 0

/-- Priority score of one finding (rules_enhanced.py lines 350-406).  The
scan-to-row ratio uses Python float (true) division, embedded as `ℚ`. -/
def findingScore (r : RuntimeMetrics) (f : Finding) : Int :=
  let sev := getStr f "severity" "LOW"
  let base : Int :=
    if sev = "HIGH" then 30 else if sev = "MEDIUM" then 15
    else if sev = "LOW" then 5 else 0
  let rule := getStr f "rule" ""
  let rows := r.rows_produced.getD 0
  let bytes := r.bytes_scanned.getD 0
  let spill_remote := r.spill_remote_bytes.getD 0
  let spill_local := r.spill_local_bytes.getD 0
  let fdb := r.fdb_throttling_ms.getD 0
  base +
  (if strContains rule "HT_WITHOUT_INDEXES" then 100 else 0) +
  (if strContains rule "HT_INDEXES_NOT_USED" then 60 else 0) +
  (if r.access_kv_table ∧ strContains rule "NO_INDEX_COVERAGE" then 50 else 0) +
  (if spill_remote > 0 then 40 else 0) +
  (if spill_local > 0 then 20 else 0) +
  (if fdb > 5000 ∧ rows < 100 then 30 else 0) +
  (if bytes > 1000000000 ∧ rows < 1000 ∧
      (bytes : Rat) / ((max rows 1 : Int) : Rat) > 1000000 then 20 else 0) +
  (if strContains rule "ORDER_BY_NO_LIMIT" ∧ rows > 100000 then 15 else 0)

/-- The primary-cause explanation string (rules_enhanced.py lines 414-424). -/
def primaryExplanation (r : RuntimeMetrics) (top : Finding) : String :=
  let rows := r.rows_produced.getD 0
  let spill_remote := r.spill_remote_bytes.getD 0
  let fdb := r.fdb_throttling_ms.getD 0
  let parts := [getStr top "message" ""]
  let parts :=
    if r.access_kv_table ∧ strContains (getStr top "rule" "") "NO_INDEX_COVERAGE" then
      parts ++ ["🔴 PRIMARY CAUSE: Zero index coverage on Hybrid Table query forces full table scan or expensive probes."]
    else if spill_remote > 0 then
      parts ++ ["🔴 PRIMARY CAUSE: Remote spill detected (" ++
        fmtFixed 2 ((spill_remote : Rat) / ((1024 : Rat) ^ 3)) ++
        " GB). Query exceeds warehouse memory."]
    else if fdb > 5000 ∧ rows < 100 then
      parts ++ ["🔴 PRIMARY CAUSE: High FDB throttling (" ++ toString fdb ++
        "ms) with tiny result set indicates inefficient access pattern."]
    else parts
  pyJoin " " parts

/-- The two key writes into the top-ranked finding
(rules_enhanced.py lines 425-426). -/
def annotateTop (expl : String) (score : Int) (f : Finding) : Finding :=
  dictInsert (dictInsert f "primary_cause_explanation" (FVal.S expl))
    "primary_cause_score" (FVal.I score)

/-- `rank_primary_cause(findings, runtime_metrics)`
(rules_enhanced.py lines 319-430).  The Python function mutates the
top-ranked finding dict in place; the embedding returns the post-call state
of the finding records (first component, aliases modelled by list position)
together with the function's return value (second component).  A falsy
`runtime_metrics` argument (`None` or an empty dict) is `none`. -/
def rank_primary_cause (findings : List Finding) (rm : Option RuntimeMetrics) :
    List Finding × Option Finding :=
  if findings = [] then (findings, none)
  else
    match rm with
    | none => (findings, (sortByDesc sevOrder findings).head?)
    | some r =>
      let scored := findings.enum.map (fun p => (findingScore r p.2, p.1, p.2))
      let sorted := sortByDesc (fun t => t.1) scored
      match sorted.head? with
      | none => (findings, none)
      | some (top_score, i, top) =>
        let top' := annotateTop (primaryExplanation r top) top_score top
        (findings.set i top', some top')

/-- Per-table body of the schema/runtime mismatch check of
`analyze_query_enhanced` (rules_enhanced.py lines 481-540), run only when
`ACCESS_KV_TABLE` is true. -/
def mismatchEntry (cte_names : List String) (entry : CoverageRow) : List Finding :=
  if entry.is_hybrid then []
  else
    let table := entry.table
    if cte_names.contains (pyUpper (stripQuotes (lastDotPart table))) then []
    else
      let indexes := entry.indexes
      let pred_eq_cols := entry.pred_eq_cols
      let index_source := entry.index_metadata_source.getD "unknown"
      if indexes = [] then
        if index_source = "unknown" then
          [[("severity", FVal.S "INFO"),
            ("rule", FVal.S "HT_INDEX_METADATA_UNKNOWN"),
            ("message", FVal.S ("Table '" ++ table ++
              "' accessed as Hybrid Table but index metadata was not available. " ++
              "Cannot determine if indexes exist or are being used.")),
            ("suggestion", FVal.S "Check actual table DDL with SHOW INDEXES or DESC TABLE."),
            ("table", FVal.S table),
            ("pred_eq_cols", FVal.LS pred_eq_cols)]]
        else
          let join_info :=
            if pred_eq_cols ≠ [] then
              "Join/filter columns (" ++ pyJoin ", " pred_eq_cols ++
                ") are scanning KV store instead of using indexed lookups."
            else
              "All joins and filters are scanning the KV store without index support."
          let suggestion :=
            if pred_eq_cols ≠ [] then
              "Create indexes immediately on: " ++ pyJoin ", " pred_eq_cols ++
                ". Put most selective column first."
            else
              "Analyze WHERE/JOIN columns and create indexes on equality predicates. " ++
                "Without indexes, HT queries are SLOWER than standard tables."
          [[("severity", FVal.S "HIGH"),
            ("rule", FVal.S "HT_WITHOUT_INDEXES"),
            ("message", FVal.S ("CRITICAL: Table '" ++ table ++
              "' is a Hybrid Table but has NO secondary indexes. " ++ join_info)),
            ("suggestion", FVal.S suggestion),
            ("table", FVal.S table),
            ("pred_eq_cols", FVal.LS pred_eq_cols),
            ("estimated_improvement", FVal.S "5-10x faster with proper indexes")]]
      else
        [[("severity", FVal.S "HIGH"),
          ("rule", FVal.S "HT_INDEXES_NOT_USED"),
          ("message", FVal.S ("WARNING: Table '" ++ table ++
            "' has indexes but query is not using them effectively. " ++
            "Runtime shows full table scan despite indexes existing.")),
          ("suggestion", FVal.S ("Review query predicates. Ensure WHERE clause " ++
            "columns match index leftmost columns. Current predicates: " ++
            (if pred_eq_cols ≠ [] then pyReprStrList pred_eq_cols else "none detected") ++
            ". Existing indexes: " ++
            pyReprStrList ((indexes.take 3).map (fun idx => idx.headD "?")) ++ ".")),
          ("table", FVal.S table),
          ("indexes", FVal.LLS indexes),
          ("estimated_improvement", FVal.S "3-5x faster with proper predicate alignment")]]

/-- The DDL-generation loop of `analyze_query_enhanced`
(rules_enhanced.py lines 587-635), with its `seen_tables` set. -/
def ddlLoop (pq : ParsedQueryEnh) (coverage : List CoverageRow)
    (access_kv_table : Bool) (rows_produced : Int) (cte_names : List String) :
    List String :=
  (coverage.foldl
    (fun acc entry =>
      if ¬ (entry.is_hybrid || access_kv_table) then acc
      else
        let table := entry.table
        if cte_names.contains (pyUpper (stripQuotes (lastDotPart table))) then acc
        else if acc.2.contains table then acc
        else
          let pred_eq_cols := entry.pred_eq_cols
          if pred_eq_cols ≠ [] ∧ entry.best_eq_pfx < pred_eq_cols.length then
            let first_range_col : Option String :=
              match entry.first_range_position, entry.best_index with
              | some pos, some bi =>
                if bi ≠ [] ∧ pos < bi.length then bi.get? pos else none
              | _, _ => none
            let ddl := generate_index_ddl table pred_eq_cols first_range_col
              pq.select_cols (some rows_produced) true
            if ddl ≠ "" then (acc.1 ++ [ddl], acc.2 ++ [table]) else acc
          else acc)
    (([], []) : List String × List String)).1

/-- The summary finding prepended when at least two HT tables have zero
secondary indexes (rules_enhanced.py lines 561-575). -/
def multiHtSummary (ht_tables_no_indexes all_pred_cols : List String) : Finding :=
  [("severity", FVal.S "HIGH"),
   ("rule", FVal.S "MULTIPLE_HT_TABLES_NO_INDEXES"),
   ("message", FVal.S ("ALL " ++ toString ht_tables_no_indexes.length ++
     " Hybrid Tables in this query have ZERO secondary indexes. Tables: " ++
     pyJoin ", " ht_tables_no_indexes ++ ". Join/filter columns (" ++
     pyJoin ", " ((sortStrAsc all_pred_cols).take 8) ++
     ") are scanning KV store row-by-row.")),
   ("suggestion", FVal.S ("Create indexes on each HT table for the columns " ++
     "used in joins and filters. This is a systemic issue - the application " ++
     "is treating HT as standard tables without leveraging indexed lookups.")),
   ("ht_tables", FVal.LS ht_tables_no_indexes),
   ("all_pred_cols", FVal.LS all_pred_cols)]

/-- Steps 0 and 1 of `analyze_query_enhanced`: the findings before the
summary pass. -/
def baseFindings (pq : ParsedQueryEnh) (coverage : List CoverageRow)
    (access_kv_table : Bool) : List Finding :=
  (if access_kv_table then
    coverage.flatMap (mismatchEntry (extractCteNames pq))
  else []) ++
    check_no_index_coverage coverage access_kv_table (extractCteNames pq)

/-- Step 1.25 of `analyze_query_enhanced` (rules_enhanced.py lines 546-575):
prepend the multi-table summary when at least two HT tables have zero
secondary indexes. -/
def summaryStage (findings : List Finding) : List Finding :=
  let ht_tables_no_indexes := findings.filterMap (fun f =>
    if getStr f "rule" "" = "HT_WITHOUT_INDEXES" ∨
        (getStr f "rule" "" = "NO_INDEX_COVERAGE_ON_PREDICATES" ∧
          ¬ fvTruthy (dictGet? f "has_indexes")) then
      some (getStr f "table" "")
    else none)
  if ht_tables_no_indexes.length ≥ 2 then
    let all_pred_cols := dedupFirst ((findings.filter (fun f =>
      ht_tables_no_indexes.contains (getStr f "table" "") ∧
        fvTruthy (dictGet? f "pred_eq_cols"))).flatMap
      (fun f => getLS f "pred_eq_cols"))
    if ¬ findings.any (fun f =>
        getStr f "rule" "" = "MULTIPLE_HT_TABLES_NO_INDEXES") then
      multiHtSummary ht_tables_no_indexes all_pred_cols :: findings
    else findings
  else findings

/-- Steps 0-2 of `analyze_query_enhanced` (rules_enhanced.py lines 467-585)
with the runtime-derived locals `access_kv_table` and `rows_produced_raw`
as parameters: the findings list assembled before the ranking pass. -/
def preRankCore (pq : ParsedQueryEnh) (coverage : List CoverageRow)
    (access_kv_table : Bool) (rows_produced_raw : Option Int) : List Finding :=
  let findings := summaryStage (baseFindings pq coverage access_kv_table)
  -- 1.5. mixed HT + standard tables
  let findings :=
    match check_mixed_ht_standard_tables coverage (extractCteNames pq) with
    | some f => findings ++ [f]
    | none => findings
  -- 2. conditional ORDER BY + LIMIT check
  match check_order_by_limit_conditional pq rows_produced_raw coverage
      access_kv_table with
  | some f => findings ++ [f]
  | none => findings

/-- Steps 0-2 of `analyze_query_enhanced`: the findings list assembled
before the ranking pass. -/
def preRankFindings (pq : ParsedQueryEnh) (coverage : List CoverageRow)
    (rm : Option RuntimeMetrics) : List Finding :=
  preRankCore pq coverage
    (match rm with | some r => r.access_kv_table | none => false)
    (match rm with | some r => r.rows_produced | none => none)

/-- `analyze_query_enhanced(pq, meta, coverage, runtime_metrics)`
(rules_enhanced.py lines 451-641): returns `(findings, primary_cause,
index_ddl)`, where `findings` is the post-call state of the finding records
(`rank_primary_cause` mutates the top one in place). -/
def analyze_query_enhanced (pq : ParsedQueryEnh)
    (meta : List (String × TableInfo)) (coverage : List CoverageRow)
    (rm : Option RuntimeMetrics) :
    List Finding × Option Finding × List String :=
  let access_kv_table := match rm with | some r => r.access_kv_table | none => false
  let rows_produced : Int :=
    (match rm with | some r => r.rows_produced | none => none).getD 0
  let cte_names := extractCteNames pq
  let findings := preRankFindings pq coverage rm
  -- 3. index DDL per table with coverage issues
  let ddl := ddlLoop pq coverage access_kv_table rows_produced cte_names
  -- 4. rank primary cause (mutates the top finding in place)
  let rp := rank_primary_cause findings rm
  (rp.1, rp.2, ddl)

/-- A finding dict that claims its table has zero indexes: the
`HT_WITHOUT_INDEXES` finding, or the `NO_INDEX_COVERAGE_ON_PREDICATES`
finding in its zero-indexes variant (`has_indexes: False`). -/
def zeroShape (f : Finding) : Prop :=
  getStr f "rule" "" = "HT_WITHOUT_INDEXES" ∨
  (getStr f "rule" "" = "NO_INDEX_COVERAGE_ON_PREDICATES" ∧
    dictGet? f "has_indexes" = some (FVal.B false))

/-- Concrete finding used by the C7 counterexample. -/
def cexFinding : Finding :=
  [("severity", FVal.S "HIGH"),
   ("rule", FVal.S "NO_INDEX_COVERAGE_ON_PREDICATES"),
   ("message", FVal.S "m")]

/-- Concrete runtime-metrics record (all counters absent, no KV access). -/
def cexMetrics : RuntimeMetrics := {}

/-- Concrete coverage row for the C3 witness: a hybrid table with equality
predicate columns, no indexes, and unknown index-metadata provenance. -/
def exEntry : CoverageRow :=
  { table := "t", is_hybrid := true, pk := [], indexes := [],
    best_index := none, best_eq_pfx := 0, first_range_position := none,
    order_by_pfx := 0, pk_eq_pfx := 0, pred_eq_cols := ["a"],
    index_metadata_source := none }

/-- Concrete runtime metrics with `ACCESS_KV_TABLE = true`. -/
def exMetricsKv : RuntimeMetrics := { access_kv_table := true }

/-- Concrete empty parsed query for the C3 witness. -/
def exPQEnh : ParsedQueryEnh := {}

end RulesEnh

/-! ## `sql_analysis/rules.py` and companions (unistore-query-analyzer)

The unistore skill's rule engine works on a `ParsedQuery` dataclass (whose
parser module is not part of the sources; the record below carries exactly
the fields the rules read) and on sqlglot AST nodes, embedded by the data
these rules extract from them.  Regular-expression searches are embedded
as explicit character-list scans implementing Python `re` semantics for
the concrete patterns used. -/

namespace URules

/-- Python regex `\s` (whitespace class). -/
def isPySpace (c : Char) : Bool :=
  c == ' ' || c == '\t' || c == '\n' || c == '\r' || c == '\x0b' || c == '\x0c'

/-- Python regex `\w`-style word character for ASCII SQL text
(`[A-Za-z0-9_]`), used for the `\b` word-boundary tests. -/
def isWordChar (c : Char) : Bool := c.isAlphanum || c == '_'

/-- `listStartsWith pat s` returns the rest of `s` after the literal
pattern `pat` when `s` starts with it. -/
def listStartsWith : List Char → List Char → Option (List Char)
  | [], s => some s
  | _ :: _, [] => none
  | p :: ps, c :: cs => if c = p then listStartsWith ps cs else none

/-- Prefix of `s` before the first occurrence of `pat`
(Python `s.split(pat)[0]` when `pat` occurs), `none` when it does not. -/
def splitFirst (pat : List Char) : List Char → Option (List Char)
  | [] => if (listStartsWith pat []).isSome then some [] else none
  | c :: cs =>
    if (listStartsWith pat (c :: cs)).isSome then some []
    else (splitFirst pat cs).map (c :: ·)

/-- The comparison operators `_non_sargable_predicates` splits on, in
source order. -/
def sargOps : List (List Char) :=
  [" = ".data, " <> ".data, " != ".data, " > ".data, " < ".data,
   " >= ".data, " <= ".data, " IN ".data, " LIKE ".data, " BETWEEN ".data]

/-- The prefix of `s` before the first occurrence of the first operator of
`ops` occurring in `s` (the loop `for op in [...]: if op in raw_u:
left_side = raw_u.split(op)[0].strip(); break`). -/
def firstOpSplit : List (List Char) → List Char → Option (List Char)
  | [], _ => none
  | op :: ops, s =>
    match splitFirst op s with
    | some pre => some pre
    | none => firstOpSplit ops s

/-- Python `.strip()` on a character list. -/
def stripSpaces (l : List Char) : List Char :=
  ((l.dropWhile Char.isWhitespace).reverse.dropWhile Char.isWhitespace).reverse

/-- The `left_side` computation of `_non_sargable_predicates`: the stripped
prefix before the first comparison operator, falling back to the whole
predicate when no operator occurs or the stripped prefix is empty. -/
def leftSideOf (raw_u : List Char) : List Char :=
  match firstOpSplit sargOps raw_u with
  | some pre =>
    let ls := stripSpaces pre
    if ls.isEmpty then raw_u else ls
  | none => raw_u

/-- The function names of the 17 `function_patterns`, each searched as
`\bNAME\s*\(`. -/
def functionNames : List (List Char) :=
  ["UPPER".data, "LOWER".data, "DATE".data, "CAST".data, "CONVERT".data,
   "COALESCE".data, "NVL".data, "IFNULL".data, "SUBSTR".data,
   "SUBSTRING".data, "TO_CHAR".data, "TO_VARCHAR".data, "TO_DATE".data,
   "TO_TIMESTAMP".data, "TRIM".data, "LTRIM".data, "RTRIM".data]

/-- After the function name: `\s*` then a literal `(`. -/
def headIsParen (s : List Char) : Bool :=
  match s.dropWhile isPySpace with
  | c :: _ => c == '('
  | [] => false

/-- `re.search(r'\bNAME\s*\(', s)`: `prev` records whether the previous
character was a word character (which would defeat the `\b` boundary). -/
def fnSearchAux (fn : List Char) : Bool → List Char → Bool
  | _, [] => false
  | prev, c :: cs =>
    (!prev && (match listStartsWith fn (c :: cs) with
      | some r => headIsParen r
      | none => false)) || fnSearchAux fn (isWordChar c) cs

/-- The arithmetic characters `[\+\-\*/]` of the column-arithmetic regex. -/
def isOpChar (c : Char) : Bool := c == '+' || c == '-' || c == '*' || c == '/'

/-- The comparator class `[=<>]` of the column-arithmetic regex. -/
def isCmpChar (c : Char) : Bool := c == '=' || c == '<' || c == '>'

/-- The candidate-column class `[A-Za-z0-9_\"\)]` of the arithmetic regex. -/
def arithClassChar (c : Char) : Bool :=
  c.isAlphanum || c == '_' || c == '"' || c == ')'

/-- The tail `\s*[\+\-\*/]\s*\d+\s*[=<>]` of the arithmetic regex. -/
def arithTail (s : List Char) : Bool :=
  match s.dropWhile isPySpace with
  | c :: rest =>
    isOpChar c &&
      (match rest.dropWhile isPySpace with
       | d :: rest2 =>
         d.isDigit &&
           (match ((d :: rest2).dropWhile Char.isDigit).dropWhile isPySpace with
            | e :: _ => isCmpChar e
            | [] => false)
       | [] => false)
  | [] => false

/-- `re.search(r"^[^=<>]*[A-Za-z0-9_\"\)]\s*[\+\-\*/]\s*\d+\s*[=<>]", s)`:
anchored at the start of `s`, the candidate class character may sit at any
position before the first `=`/`<`/`>`. -/
def arithScan : List Char → Bool
  | [] => false
  | c :: cs =>
    if isCmpChar c then false
    else (arithClassChar c && arithTail cs) || arithScan cs

/-- One entry of `pq.predicates` (dict with `left`/`op`/`right`/`raw`). -/
structure PredU where
  left : String := ""
  op : String := ""
  right : String := ""
  raw : String := ""
deriving DecidableEq

/-- One entry of `pq.joins` (dict with `type`/`on`/`raw`; `on` is kept as
the truthiness of the ON expression). -/
structure JoinU where
  jtype : Option String := none
  on_pred : Bool := false
  raw : String := ""
deriving DecidableEq

/-- The INSERT target expression `stmt.this`: a resolved `exp.Table`, an
`exp.Anonymous` function call such as `IDENTIFIER(...)`, or anything
else. -/
inductive InsTarget where
  | table (catalog db tname : String)
  | anonFn (fname : String)
  | otherExpr
deriving DecidableEq

/-- One expression of a VALUES tuple: a string `exp.Literal` carries its
text, anything else only the fact that it is not one. -/
structure ValExpr where
  is_string : Bool := false
  text : String := ""
deriving DecidableEq

/-- `pq.ast`: `None`, an `exp.Insert` (with target, column list and the
`VALUES` rows when the `expression` arg is an `exp.Values`), or another
statement node identified by its class name (`Delete`, `Update`, ...). -/
inductive Ast where
  | noAst
  | insertStmt (target : InsTarget) (columns : List String)
      (valuesRows : Option (List (List ValExpr)))
  | otherStmt (className : String)
deriving DecidableEq

/-- `stmt.__class__.__name__` for the embedded AST. -/
def astClassName : Ast → String
  | Ast.noAst => ""
  | Ast.insertStmt _ _ _ => "Insert"
  | Ast.otherStmt n => n

/-- The `ParsedQuery` fields read by the unistore rule engine. -/
structure ParsedQueryU where
  ast : Ast := Ast.noAst
  predicates : List PredU := []
  has_where : Bool := false
  has_distinct : Bool := false
  has_exists : Bool := false
  has_in : Bool := false
  has_having : Bool := false
  has_qualify : Bool := false
  joins : List JoinU := []
  order_by : List (String × String) := []
  limit : Option Int := none
  select_cols : List String := []
deriving DecidableEq

/-- Table metadata entry (`meta[t]` dict with `columns`/`is_hybrid`/`pk`/
`indexes`). -/
structure TableMetaU where
  columns : List (String × Option String) := []
  is_hybrid : Bool := false
  pk : List String := []
  indexes : List (List String) := []
deriving DecidableEq

/-- Coverage entry fields read by rule 7 of `analyze_query`. -/
structure CoverageU where
  table : String := ""
  is_hybrid : Bool := false
  pk : List String := []
  indexes : List (List String) := []
  best_eq_pfx : Int := 0
  order_by_pfx : Int := 0
  pk_eq_pfx : Int := 0
  pred_eq_cols : List String := []
deriving DecidableEq

/-- The `breakdown` dict of `classify_child_bottleneck`
(`max_throttle` embeds the `max_throttle_ratio` key). -/
structure Breakdown where
  copy_sec : Rat := 0
  ht_dml_sec : Rat := 0
  other_dml_sec : Rat := 0
  queued_sec : Rat := 0
  other_sec : Rat := 0
  max_throttle : Rat := 0
  max_spill_bytes : Rat := 0
deriving DecidableEq

/-- A unistore finding dict, embedded as a record with one optional field
per key that only some rules attach (`checkName`/`contextStr` embed the
`check`/`context` keys; `purgeMeta` the purge `metadata` dict; `inContext`
and `truncated` the massive-IN-list `context` dict). -/
structure UFinding where
  severity : Option String := none
  rule : String := ""
  message : String := ""
  suggestion : String := ""
  remediation : Option String := none
  purgeMeta : Option (List String × List String × String) := none
  remediation_sql : Option String := none
  inContext : Option (String × String × Nat) := none
  truncated : Bool := false
  checkName : Option String := none
  category : Option String := none
  contextStr : Option String := none
  breakdown : Option Breakdown := none
  proc_name : Option String := none
deriving DecidableEq

/-- Python `s.endswith(suf)`. -/
def strEndsWith (s suf : String) : Bool := suf.data.isSuffixOf s.data

/-- `_NUMERIC_RE = ^-?\d+(\.\d+)?$` as a full match (the `$` anchor; the
Python nuance that `$` also matches before a final newline is not used by
the sources). -/
def digitsThen : List Char → Option (List Char)
  | c :: cs => if c.isDigit then some ((c :: cs).dropWhile Char.isDigit) else none
  | [] => none

def isNumericLit (s : List Char) : Bool :=
  let s1 := match s with
    | '-' :: t => t
    | t => t
  match digitsThen s1 with
  | some [] => true
  | some ('.' :: t) =>
    (match digitsThen t with
     | some [] => true
     | _ => false)
  | _ => false

/-- `_distinct_unnecessary(pq)` (rules.py lines 18-30). -/
def _distinct_unnecessary (pq : ParsedQueryU) : Bool :=
  if !pq.has_distinct then false
  else pq.has_exists && pq.joins.isEmpty

/-- `_order_without_limit(pq)` (rules.py lines 32-34). -/
def _order_without_limit (pq : ParsedQueryU) : Bool :=
  !pq.order_by.isEmpty && pq.limit.isNone

/-- `_non_sargable_predicates` body for one predicate (rules.py lines
36-98): the function-pattern loop appends `raw` at most once (`break`),
then the leading-wildcard LIKE check and the left-side arithmetic check
each append `raw` again when they fire. -/
def nonSargEntry (p : PredU) : List String :=
  let raw_u := pyUpper p.raw
  let left_side := leftSideOf raw_u.data
  (if functionNames.any (fun fn => fnSearchAux fn false left_side) then
    [p.raw] else []) ++
    (if strContains raw_u " LIKE " && strContains raw_u " '%" then
      [p.raw] else []) ++
    (if arithScan raw_u.data then [p.raw] else [])

/-- `_non_sargable_predicates(pq)` (rules.py lines 36-98). -/
def _non_sargable_predicates (pq : ParsedQueryU) : List String :=
  pq.predicates.flatMap nonSargEntry

/-- `_wide_projection(pq)` (rules.py lines 100-106). -/
def _wide_projection (pq : ParsedQueryU) : Bool :=
  pq.select_cols.any (fun col => pyStrip col = "*")

/-- `_literal_binding_hints(pq)` (rules.py lines 108-120). -/
def _literal_binding_hints (pq : ParsedQueryU) : List String :=
  pq.predicates.filterMap (fun p =>
    if p.right ≠ "" ∧
        ((strStartsWith p.right "'" ∧ strEndsWith p.right "'") ∨
          isNumericLit p.right.data) then
      some p.raw
    else none)

/-- One predicate's contribution to `_type_mismatch_on_index` for table
`t` with lowered-key/uppered-type column map `colTypes`. -/
def typeIssuesFor (colTypes : List (String × String)) (t : String)
    (p : PredU) : List String :=
  let lft := pyLower (stripQuotes (lastDotPart p.left))
  match dictGet? colTypes lft with
  | some ctype =>
    if p.right ≠ "" then
      let is_str_lit := strStartsWith p.right "'" && strEndsWith p.right "'"
      let is_num_lit := isNumericLit p.right.data
      (if (strContains ctype "NUMBER" || strContains ctype "INT") &&
          is_str_lit then
        [t ++ ": " ++ p.raw ++ " (cast the literal to NUMBER, not the column)"]
      else []) ++
        (if (strContains ctype "DATE" || strContains ctype "TIMESTAMP") &&
            is_str_lit &&
            !(strContains (pyUpper p.raw) "TO_DATE(") &&
            !(strContains (pyUpper p.raw) "TO_TIMESTAMP") then
          [t ++ ": " ++ p.raw ++
            " (wrap literal with TO_DATE/TO_TIMESTAMP to preserve pushdown)"]
        else []) ++
        (if (strContains ctype "VARCHAR" || strContains ctype "TEXT") &&
            is_num_lit then
          [t ++ ": " ++ p.raw ++
            " (ensure consistent string literal to avoid implicit cast)"]
        else [])
    else []
  | none => []

/-- `_type_mismatch_on_index(pq, meta)` (rules.py lines 122-155); the
`col_types` comprehension is a last-write-wins dict build. -/
def _type_mismatch_on_index (pq : ParsedQueryU)
    (meta : List (String × TableMetaU)) : List String :=
  meta.flatMap (fun ti =>
    let colTypes := ti.2.columns.foldl
      (fun d kv => dictInsert d (pyLower kv.1) (pyUpper (kv.2.getD ""))) []
    pq.predicates.flatMap (typeIssuesFor colTypes ti.1))

/-- `_missing_where(pq)` (rules.py lines 157-173). -/
def _missing_where (pq : ParsedQueryU) : Bool :=
  if pq.has_where then false else pq.predicates.isEmpty

/-- `_has_any_narrowing(pq)` (rules.py lines 175-191). -/
def _has_any_narrowing (pq : ParsedQueryU) : Bool :=
  if pq.has_where ∧ pq.predicates.length > 0 then true
  else if pq.has_exists ∨ pq.has_in then true
  else if pq.has_having ∨ pq.has_qualify then true
  else false

/-- `_joins_without_on(pq)` (rules.py lines 193-202). -/
def _joins_without_on (pq : ParsedQueryU) : List String :=
  pq.joins.filterMap (fun j =>
    let jt := pyUpper (j.jtype.getD "")
    if (jt = "INNER" ∨ jt = "LEFT" ∨ jt = "RIGHT" ∨ jt = "FULL") ∧
        !j.on_pred then
      some j.raw
    else none)

/-- The `time_col_patterns` of `_detect_purge_pattern`: plain patterns are
substring searches, the `$`-anchored ones suffix tests (`left` is already
lower-cased). -/
def isTimeColName (lft : String) : Bool :=
  strContains lft "created" || strContains lft "updated" ||
    strContains lft "modified" || strContains lft "deleted" ||
    strContains lft "timestamp" || strContains lft "date" ||
    strContains lft "time" ||
    strEndsWith lft "_at" || strEndsWith lft "_dt" ||
    strEndsWith lft "_date" || strEndsWith lft "_time"

/-- The date-value keywords of `_detect_purge_pattern`. -/
def isDateValue (rgt : String) : Bool :=
  strContains rgt "date" || strContains rgt "timestamp" ||
    strContains rgt "current" || strContains rgt "dateadd" ||
    strContains rgt "datediff"

/-- `_detect_purge_pattern(pq)` (rules.py lines 205-270). -/
def _detect_purge_pattern (pq : ParsedQueryU) :
    Option (Bool × String × List String × List String) :=
  if pq.ast = Ast.noAst then none
  else
    let stype := pyUpper (astClassName pq.ast)
    if ¬(stype = "DELETE" ∨ stype = "UPDATE" ∨ stype = "MERGE") then none
    else if pq.predicates.length < 2 then none
    else
      let equality_cols := pq.predicates.filterMap (fun p =>
        if pyUpper p.op = "EQ" ∨ pyUpper p.op = "IN" then
          some (pyLower p.left) else none)
      let time_range_cols := pq.predicates.filterMap (fun p =>
        if (pyUpper p.op = "LT" ∨ pyUpper p.op = "LTE" ∨
            pyUpper p.op = "LESSTHAN" ∨ pyUpper p.op = "LESSTHANOREQUALTO") ∧
            (isTimeColName (pyLower p.left) ∨ isDateValue (pyLower p.right)) then
          some (pyLower p.left) else none)
      if equality_cols ≠ [] ∧ time_range_cols ≠ [] then
        some (true,
          "DELETE/UPDATE with equality filter (" ++
            pyJoin ", " (equality_cols.take 2) ++ ") and time-range (" ++
            pyJoin ", " (time_range_cols.take 2) ++ ")",
          equality_cols, time_range_cols)
      else none

/-! ### `sql_analysis/rules_ht_dml.py` -/

/-- `_fqn_from_table(t)`: join the nonempty parts with dots. -/
def _fqn_from_table (catalog db tname : String) : String :=
  pyJoin "." ([catalog, db, tname].filter (fun p => p ≠ ""))

/-- `_is_dynamic_identifier(target)`. -/
def _is_dynamic_identifier : InsTarget → Bool
  | InsTarget.anonFn n => pyUpper n = "IDENTIFIER"
  | _ => false

/-- `_insert_values_count(stmt)`. -/
def _insert_values_count : Ast → Nat
  | Ast.insertStmt _ _ (some rows) => rows.length
  | _ => 0

/-- `rule_dynamic_identifier_target(stmt)`. -/
def rule_dynamic_identifier_target : Ast → List UFinding
  | Ast.insertStmt target _ _ =>
    if _is_dynamic_identifier target then
      [{ severity := some "MEDIUM", rule := "DYNAMIC_IDENTIFIER_TARGET",
         message := "INSERT target uses IDENTIFIER(...); analyzer cannot verify Hybrid Table/PK/indexes.",
         suggestion := "Use an explicit FQN (DB.SCHEMA.TABLE) or provide a resolver to supply metadata for the resolved table." }]
    else []
  | _ => []

/-- `rule_single_row_values_insert(stmt)` (the suggestion string carries
the source file's literal mojibake dash). -/
def rule_single_row_values_insert (stmt : Ast) : List UFinding :=
  match stmt with
  | Ast.insertStmt _ _ _ =>
    if _insert_values_count stmt = 1 then
      [{ severity := some "MEDIUM", rule := "SINGLE_ROW_VALUES_INSERT",
         message := "Single-row INSERT ... VALUES detected. Frequent 1-row commits are inefficient on Hybrid Tables.",
         suggestion := "Batch rows: multi-row VALUES, array binding (commit every 500â€“2,000 rows), or staged INSERT ... SELECT." }]
    else []
  | _ => []

/-- `rule_ht_pk_coverage_on_insert(stmt, meta)`. -/
def rule_ht_pk_coverage_on_insert (stmt : Ast)
    (meta : List (String × TableMetaU)) : List UFinding :=
  match stmt with
  | Ast.insertStmt (InsTarget.table c d n) cols _ =>
    match dictGet? meta (_fqn_from_table c d n) with
    | some tmeta =>
      if tmeta.is_hybrid then
        let pk := tmeta.pk.map pyLower
        let colsL := cols.map pyLower
        let missing := pk.filter (fun x => !colsL.contains x)
        if pk ≠ [] ∧ missing ≠ [] then
          [{ severity := some "HIGH", rule := "HT_PK_NOT_IN_INSERT",
             message := "Hybrid Table PK columns missing in INSERT column list: " ++
               pyReprStrList missing ++ ".",
             suggestion := "Include all PK columns (or ensure defaults) to avoid PK violations/retries; consider MERGE for upserts." }]
        else []
      else []
    | none => []
  | _ => []

/-- `rule_ht_write_amplification(stmt, meta)`. -/
def rule_ht_write_amplification (stmt : Ast)
    (meta : List (String × TableMetaU)) : List UFinding :=
  match stmt with
  | Ast.insertStmt (InsTarget.table c d n) _ _ =>
    match dictGet? meta (_fqn_from_table c d n) with
    | some tmeta =>
      if tmeta.is_hybrid then
        let pk := tmeta.pk.map pyLower
        let non_pk := tmeta.indexes.filter
          (fun i => ¬(i.map pyLower = pk.map pyLower))
        if non_pk.length ≥ 3 then
          [{ severity := some "MEDIUM", rule := "HT_WRITE_AMPLIFICATION",
             message := "Hybrid Table has " ++ toString non_pk.length ++
               " secondary indexes; frequent small inserts will be costly.",
             suggestion := "Batch inserts and/or prune secondary indexes to the minimum necessary." }]
        else []
      else []
    | none => []
  | _ => []

/-- `analyze_ht_dml_rules(pq, meta)`. -/
def analyze_ht_dml_rules (pq : ParsedQueryU)
    (meta : List (String × TableMetaU)) : List UFinding :=
  rule_dynamic_identifier_target pq.ast ++
    rule_single_row_values_insert pq.ast ++
    rule_ht_pk_coverage_on_insert pq.ast meta ++
    rule_ht_write_amplification pq.ast meta

/-! ### `sql_analysis/rules_ht_payload.py` -/

/-- Case-insensitive literal match returning the rest (`kw` is given
upper-case). -/
def kwAt : List Char → List Char → Option (List Char)
  | [], rest => some rest
  | _ :: _, [] => none
  | k :: ks, c :: cs => if c.toUpper = k then kwAt ks cs else none

/-- `SQL_KEYWORDS_RE = \b(DELETE|UPDATE|INSERT|SELECT)\b` (IGNORECASE),
as a search. -/
def sqlKeywordSearchAux : Bool → List Char → Bool
  | _, [] => false
  | prev, c :: cs =>
    (!prev && ["DELETE".data, "UPDATE".data, "INSERT".data,
        "SELECT".data].any (fun kw =>
      match kwAt kw (c :: cs) with
      | some [] => true
      | some (r :: _) => !isWordChar r
      | none => false)) || sqlKeywordSearchAux (isWordChar c) cs

def sqlKeywordSearch (s : String) : Bool := sqlKeywordSearchAux false s.data

/-- The group class `[A-Z0-9_.\"\x60]` of the DELETE-IN regexes (with
IGNORECASE). -/
def isInListNameChar (c : Char) : Bool :=
  c.isAlphanum || c == '_' || c == '.' || c == '"' || c == '\x60'

/-- Match `DELETE\s+FROM\s+(g1)\s+WHERE\s+(g2)\s+IN\s*\(` at the head of
`s`, returning both groups and the rest after the opening parenthesis. -/
def deleteInPfxAt (s : List Char) : Option (String × String × List Char) :=
  match kwAt "DELETE".data s with
  | none => none
  | some r0 =>
    let r1 := r0.dropWhile isPySpace
    if r1.length = r0.length then none
    else match kwAt "FROM".data r1 with
    | none => none
    | some r2 =>
      let r3 := r2.dropWhile isPySpace
      if r3.length = r2.length then none
      else
      let g1 := r3.takeWhile isInListNameChar
      if g1.isEmpty then none
      else
      let r4 := r3.dropWhile isInListNameChar
      let r5 := r4.dropWhile isPySpace
      if r5.length = r4.length then none
      else match kwAt "WHERE".data r5 with
      | none => none
      | some r6 =>
        let r7 := r6.dropWhile isPySpace
        if r7.length = r6.length then none
        else
        let g2 := r7.takeWhile isInListNameChar
        if g2.isEmpty then none
        else
        let r8 := r7.dropWhile isInListNameChar
        let r9 := r8.dropWhile isPySpace
        if r9.length = r8.length then none
        else match kwAt "IN".data r9 with
        | none => none
        | some r10 =>
          match r10.dropWhile isPySpace with
          | '(' :: rest => some (String.mk g1, String.mk g2, rest)
          | _ => none

/-- Split off everything before the LAST `)` (how the greedy
`(?P<body>.*)\)` with DOTALL resolves). -/
def lastParenSplit (l : List Char) : Option (List Char) :=
  match l.reverse.dropWhile (fun c => !(c == ')')) with
  | _ :: t => some t.reverse
  | [] => none

/-- `DELETE_IN_RE.search`: first start position where the full pattern
(including a closing parenthesis somewhere after) matches. -/
def deleteInSearch : List Char → Option (String × String × List Char)
  | [] => none
  | c :: cs =>
    match deleteInPfxAt (c :: cs) with
    | some (g1, g2, rest) =>
      match lastParenSplit rest with
      | some body => some (g1, g2, body)
      | none => deleteInSearch cs
    | none => deleteInSearch cs

/-- `DELETE_IN_PREFIX_RE.search`. -/
def deleteInPfxSearch : List Char → Option (String × String × List Char)
  | [] => none
  | c :: cs =>
    match deleteInPfxAt (c :: cs) with
    | some r => some r
    | none => deleteInPfxSearch cs

/-- Split a character list on a separator character. -/
def splitOnChar (sep : Char) : List Char → List (List Char)
  | [] => [[]]
  | c :: cs =>
    let r := splitOnChar sep cs
    if c = sep then [] :: r
    else match r with
      | h :: t => (c :: h) :: t
      | [] => [[c]]

/-- Count of items of `re.split(r"\s*,\s*", body)` with nonempty strip:
splitting on bare commas and stripping each segment yields the same
segments up to surrounding whitespace, hence the same count. -/
def countItems (body : List Char) : Nat :=
  (((splitOnChar ',' body).map stripSpaces).filter
    (fun x => ¬x.isEmpty)).length

/-- `_parse_delete_in_list(sql_text)` reduced to the data used by its
caller: both stripped groups and `items_count`. -/
def _parse_delete_in_list (s : String) : Option (String × String × Nat) :=
  match deleteInSearch s.data with
  | some (t, c, body) =>
    some (pyStrip t, pyStrip c, countItems (stripSpaces body))
  | none => none

/-- `_parse_delete_target_col_prefix(s)`. -/
def _parse_delete_target_col_pfx (s : String) : Option (String × String) :=
  match deleteInPfxSearch s.data with
  | some (t, c, _) => some (pyStrip t, pyStrip c)
  | none => none

/-- Python `s.rstrip()`. -/
def rstripStr (s : String) : String :=
  String.mk (s.data.reverse.dropWhile Char.isWhitespace).reverse

/-- Occurrences of a character in a string. -/
def countChar (c : Char) (s : String) : Nat :=
  (s.data.filter (fun x => x == c)).length

/-- `_looks_truncated(s, threshold=8000)`. -/
def _looks_truncated (s : String) : Bool :=
  if s.length ≥ 8000 then true
  else if strEndsWith (rstripStr s) "..." || strEndsWith (rstripStr s) "…" then
    true
  else if countChar '(' s > countChar ')' s then true
  else if countChar '\'' s % 2 = 1 then true
  else false

/-- Rightmost start position where `DELETE_IN_PREFIX_RE` matches, keeping
the rest after the opening parenthesis (`finditer`'s last match: a
prefix match never extends past its opening parenthesis in a way that
lets a later matching start be skipped, so scanning every start agrees
with the non-overlapping scan). -/
def lastPfxRestAux (acc : Option (List Char)) : List Char → Option (List Char)
  | [] => acc
  | c :: cs =>
    match deleteInPfxAt (c :: cs) with
    | some (_, _, rest) => lastPfxRestAux (some rest) cs
    | none => lastPfxRestAux acc cs

/-- `_estimate_items_so_far(s)`. -/
def _estimate_items_so_far (s : String) : Nat :=
  match lastPfxRestAux none s.data with
  | some body =>
    ((splitOnChar ',' body).filter (fun x => ¬(stripSpaces x).isEmpty)).length
  | none => 0

/-- `_remediation_for_delete_join(target, column, approx_items)`. -/
def _remediation_for_delete_join (target column : String)
    (approx_items : Option Nat) : String :=
  let col := String.mk (((column.data.dropWhile
    (fun c => c == '"' || c == '\x60')).reverse.dropWhile
    (fun c => c == '"' || c == '\x60')).reverse)
  let approx := match approx_items with
    | some k => if k ≠ 0 then " (visible so far: ~" ++ toString k ++ ")" else ""
    | none => ""
  "-- Remediation: replace huge IN list with a set-based join delete\n" ++
    "-- Keys detected" ++ approx ++ ". Load full key list into a table, then join.\n" ++
    "create temporary table keys_batch (" ++ col ++ " string);\n\n" ++
    "-- Option A: paste keys in manageable batches (1–5K rows/batch)\n" ++
    "insert into keys_batch (" ++ col ++ ")\n" ++
    "select v." ++ col ++ "\n" ++
    "from values\n" ++
    "  ('key1'), ('key2') as v(" ++ col ++ ");\n\n" ++
    "delete t\n" ++
    "from " ++ target ++ " as t\n" ++
    "join keys_batch k\n" ++
    "  on k." ++ col ++ " = t." ++ col ++ ";\n\n" ++
    "-- Option B: stage a file with one key per line and load\n" ++
    "-- copy into keys_batch from @mystage/keys_batch.csv file_format=(type=csv field_optionally_enclosed_by='\"');\n" ++
    "-- delete t from " ++ target ++ " t join keys_batch k on k." ++ col ++
    "=t." ++ col ++ ";\n"

/-- `_extract_insert_literals(stmt)`. -/
def _extract_insert_literals : Ast → List String
  | Ast.insertStmt _ _ (some rows) =>
    rows.flatMap (fun tup =>
      tup.filterMap (fun e => if e.is_string then some e.text else none))
  | _ => []

/-- `_is_fully_qualified` + `rule_unqualified_target(stmt)`. -/
def rule_unqualified_target : Ast → List UFinding
  | Ast.insertStmt (InsTarget.table c d n) _ _ =>
    if ¬(c ≠ "" ∧ d ≠ "" ∧ n ≠ "") then
      [{ severity := some "MEDIUM", rule := "UNQUALIFIED_TARGET",
         message := "INSERT target is not fully qualified (missing DB and/or SCHEMA).",
         suggestion := "Use DB.SCHEMA.TABLE so metadata (Hybrid Table, PK, indexes) can be verified." }]
    else []
  | _ => []

/-- `rule_large_literal_payload(stmt, max_len=8192)`. -/
def rule_large_literal_payload (stmt : Ast) : List UFinding :=
  match stmt with
  | Ast.insertStmt _ _ _ =>
    if ((_extract_insert_literals stmt).filter
        (fun s => s.length ≥ 8192)) ≠ [] then
      [{ severity := some "MEDIUM", rule := "LARGE_LITERAL_PAYLOAD",
         message := "Very large string literal detected in INSERT payload (>= 8192 bytes).",
         suggestion := "Store large text externally (stage/object store) or as structured pieces; keep HT rows small." }]
    else []
  | _ => []

/-- `rule_embedded_sql_in_literal(stmt)`. -/
def rule_embedded_sql_in_literal (stmt : Ast) : List UFinding :=
  match stmt with
  | Ast.insertStmt _ _ _ =>
    if ((_extract_insert_literals stmt).filter sqlKeywordSearch) ≠ [] then
      [{ severity := some "MEDIUM", rule := "EMBEDDED_SQL_LITERAL",
         message := "String literal appears to contain SQL (e.g., DELETE/INSERT/UPDATE/SELECT).",
         suggestion := "Avoid storing full SQL text in HT rows. Log structured fields (operation type, target table, batch_id) and keep key lists in staging tables." }]
    else []
  | _ => []

/-- The literal loop of `rule_massive_in_list_in_literal` (first
qualifying literal wins, `break`). -/
def massiveInScan : List String → List UFinding
  | [] => []
  | s :: rest =>
    if ¬ sqlKeywordSearch s then massiveInScan rest
    else match _parse_delete_in_list s with
      | none => massiveInScan rest
      | some (t, c, cnt) =>
        if cnt ≥ 100 then
          [{ severity := some "HIGH", rule := "MASSIVE_IN_LIST_IN_LITERAL",
             message := "Embedded SQL contains an IN list with " ++
               toString cnt ++ " items (>= 100).",
             suggestion := "Stage keys in a table and delete via join (set-based) instead of a huge IN list.",
             remediation_sql := some (_remediation_for_delete_join t c (some cnt)),
             inContext := some (t, c, cnt) }]
        else massiveInScan rest

/-- `rule_massive_in_list_in_literal(stmt, min_items=100)`. -/
def rule_massive_in_list_in_literal (stmt : Ast) : List UFinding :=
  match stmt with
  | Ast.insertStmt _ _ _ => massiveInScan (_extract_insert_literals stmt)
  | _ => []

/-- The literal loop of `rule_massive_in_list_truncated` (`est or None`
is `est` because the branch requires `est ≥ 20`). -/
def truncScan : List String → List UFinding
  | [] => []
  | s :: rest =>
    if ¬ sqlKeywordSearch s then truncScan rest
    else if ¬ _looks_truncated s then truncScan rest
    else match _parse_delete_target_col_pfx s with
      | none => truncScan rest
      | some (t, c) =>
        let est := _estimate_items_so_far s
        if est ≥ 20 then
          [{ severity := some "HIGH", rule := "MASSIVE_IN_LIST_TRUNCATED",
             message := "Embedded SQL appears truncated but shows a large IN list (visible items ≈ " ++
               toString est ++ ").",
             suggestion := "Use a set-based delete via staged keys; avoid giant IN lists.",
             remediation_sql := some (_remediation_for_delete_join t c (some est)),
             inContext := some (t, c, est), truncated := true }]
        else truncScan rest

/-- `rule_massive_in_list_truncated(stmt, min_visible_items=20)`. -/
def rule_massive_in_list_truncated (stmt : Ast) : List UFinding :=
  match stmt with
  | Ast.insertStmt _ _ _ => truncScan (_extract_insert_literals stmt)
  | _ => []

/-- `analyze_ht_payload_rules(pq, meta)` (the `meta` argument is unused by
the source as well). -/
def analyze_ht_payload_rules (pq : ParsedQueryU)
    (_meta : List (String × TableMetaU)) : List UFinding :=
  rule_unqualified_target pq.ast ++
    rule_large_literal_payload pq.ast ++
    rule_embedded_sql_in_literal pq.ast ++
    rule_massive_in_list_in_literal pq.ast ++
    rule_massive_in_list_truncated pq.ast

/-! ### `analyze_query` (rules.py lines 272-471), one segment per
sequential `findings.append` block. -/

/-- Rule -1: purge-pattern finding. -/
def purgeSegment (pq : ParsedQueryU) : List UFinding :=
  match _detect_purge_pattern pq with
  | some (_, description, equality_cols, time_range_cols) =>
    let index_suggestion := "CREATE INDEX idx_purge ON <table> (" ++
      pyJoin ", " (equality_cols.take 1 ++ time_range_cols.take 1) ++ ")"
    [{ severity := some "INFO", rule := "HT_PURGE_PATTERN_DETECTED",
       message := "Data purge/cleanup pattern detected: " ++ description,
       suggestion := "For efficient bulk deletes: 1) Batch with ROW_NUMBER() QUALIFY <= 1000, 2) Rate-limit (e.g., 100ms between batches), 3) Ensure composite index exists: " ++
         index_suggestion ++
         ", 4) Archive to columnar before deletion. See Field Manual for complete batching pattern.",
       purgeMeta := some (equality_cols, time_range_cols, index_suggestion) }]
  | none => []

/-- The rule-0a finding. -/
def noFilterFinding : UFinding :=
  { severity := some "HIGH", rule := "NO_FILTERING_CLAUSES",
    message := "No narrowing filters detected (no WHERE/IN/EXISTS/HAVING/QUALIFY). Query likely scans entire table(s).",
    suggestion := "Add selective predicates (WHERE with equality on indexed/PK columns, EXISTS/IN) or apply QUALIFY/HAVING as appropriate. Full table scans are extremely inefficient for Hybrid Tables." }

/-- Rule 0a: no narrowing filter at all. -/
def noFilterSegment (pq : ParsedQueryU) : List UFinding :=
  if ¬ _has_any_narrowing pq then [noFilterFinding] else []

/-- The rule-0b finding. -/
def noWhereFinding : UFinding :=
  { severity := some "HIGH", rule := "NO_WHERE_FILTER",
    message := "No WHERE clause with predicates found; query will scan all rows.",
    suggestion := "Add equality/range predicates on indexed/PK columns to reduce scanned data. Hybrid Tables require selective filters for optimal performance." }

/-- Rule 0b: missing WHERE. -/
def noWhereSegment (pq : ParsedQueryU) : List UFinding :=
  if _missing_where pq then [noWhereFinding] else []

/-- Rule 0c: joins without ON. -/
def joinOnSegment (pq : ParsedQueryU) : List UFinding :=
  let bad_joins := _joins_without_on pq
  if bad_joins ≠ [] then
    let join_list := pyJoin ", " (bad_joins.take 2) ++
      (if bad_joins.length > 2 then
        " ... (" ++ toString bad_joins.length ++ " total)" else "")
    [{ severity := some "HIGH", rule := "JOIN_WITHOUT_ON",
       message := "Join(s) without ON predicate detected: " ++ join_list,
       suggestion := "Provide explicit ON predicates; avoid implicit cross joins that create cartesian products and balloon result size." }]
  else []

/-- Rule 1: unnecessary DISTINCT. -/
def distinctSegment (pq : ParsedQueryU) : List UFinding :=
  if _distinct_unnecessary pq then
    [{ severity := some "HIGH", rule := "DISTINCT_UNNECESSARY",
       message := "DISTINCT appears unnecessary with EXISTS; remove to avoid global dedup.",
       suggestion := "Remove DISTINCT unless duplicates are possible from the base table." }]
  else []

/-- Rule 2: ORDER BY without LIMIT. -/
def orderSegment (pq : ParsedQueryU) : List UFinding :=
  if _order_without_limit pq then
    [{ severity := some "HIGH", rule := "ORDER_BY_NO_LIMIT",
       message := "ORDER BY [" ++ pyJoin ", " (pq.order_by.map Prod.fst) ++
         "] without LIMIT/FETCH will sort entire result.",
       suggestion := "Add LIMIT (e.g., LIMIT 1000) or FETCH FIRST n ROWS ONLY, or apply seek pagination on PK/index. For HT, ORDER BY on PK + LIMIT/FETCH enables top-K optimization." }]
  else []

/-- Rule 3: non-sargable predicates. -/
def nonSargSegment (pq : ParsedQueryU) : List UFinding :=
  let non_sarg := _non_sargable_predicates pq
  if non_sarg ≠ [] then
    [{ severity := some "HIGH", rule := "NON_SARGABLE_PREDICATES",
       message := "Functions applied to columns in predicates (prevents index usage): " ++
         pyReprStrList (non_sarg.take 2),
       suggestion := "Move functions to the literal side: Instead of 'UPPER(col) = value', use 'col = UPPER(value)'. Or precompute values at load time. This allows indexes to be used.",
       remediation := some ("\n" ++
         "**Why this matters:** When you apply a function to a column in a WHERE clause (e.g., `UPPER(name) = 'JOHN'`), \n" ++
         "Snowflake cannot use indexes on that column because it must compute the function for every row.\n" ++
         "\n" ++
         "**How to fix:**\n" ++
         "1. **Move function to literal:** `name = UPPER('john')` → works with index on `name`\n" ++
         "2. **Precompute at load:** Add computed column or normalize data at insert time\n" ++
         "3. **Use collation:** For case-insensitive string matching, use `COLLATE 'en-ci'` instead of UPPER/LOWER\n" ++
         "\n" ++
         "**Example:**\n" ++
         "```sql\n" ++
         "-- ❌ Non-sargable (index not used)\n" ++
         "WHERE UPPER(email) = 'USER@EXAMPLE.COM'\n" ++
         "\n" ++
         "-- ✅ Sargable (index can be used)\n" ++
         "WHERE email = UPPER('user@example.com')  -- if storing normalized\n" ++
         "-- OR\n" ++
         "WHERE email COLLATE 'en-ci' = 'user@example.com'  -- case-insensitive collation\n" ++
         "```\n") }]
  else []

/-- Rule 4: wide projection. -/
def wideSegment (pq : ParsedQueryU) : List UFinding :=
  if _wide_projection pq then
    [{ severity := some "MEDIUM", rule := "WIDE_SELECT",
       message := "SELECT * or wide projection increases base-table probe cost in HT.",
       suggestion := "Project only needed columns to reduce base-table probes. HT secondary indexes are non-covering." }]
  else []

/-- Rule 5: bind-parameter hints. -/
def bindSegment (pq : ParsedQueryU) : List UFinding :=
  let literal_hints := _literal_binding_hints pq
  if literal_hints.length ≥ 2 then
    [{ severity := some "MEDIUM", rule := "BIND_PARAMETERS",
       message := "Many literal predicates detected (" ++
         toString literal_hints.length ++ " found): " ++
         pyReprStrList (literal_hints.take 4) ++
         (if literal_hints.length > 4 then " ..." else ""),
       suggestion := "Use bind parameters / parameterized queries to improve plan-cache reuse and reduce compile time." }]
  else []

/-- Rule 6: implicit-cast type mismatches. -/
def typeSegment (pq : ParsedQueryU)
    (meta : List (String × TableMetaU)) : List UFinding :=
  let type_issues := _type_mismatch_on_index pq meta
  if type_issues ≠ [] then
    [{ severity := some "MEDIUM", rule := "TYPE_MISMATCH",
       message := "Potential implicit casts on indexed columns (" ++
         toString type_issues.length ++ " found): " ++
         pyReprStrList (type_issues.take 4) ++
         (if type_issues.length > 4 then " ..." else ""),
       suggestion := "Cast the literal to the column's type (not the column) to keep predicates sargable and avoid index suppression." }]
  else []

/-- Rule 7: index-coverage findings for one coverage entry. -/
def coverageEntrySegment (pq : ParsedQueryU) (entry : CoverageU) :
    List UFinding :=
  if !entry.is_hybrid then []
  else
    (if entry.pk_eq_pfx = 0 ∧ entry.pk ≠ [] then
      [{ severity := some "HIGH", rule := "PK_NOT_EARLY_IN_PREDICATES",
         message := "HT table '" ++ entry.table ++
           "': no equality on leftmost PK columns; HT lookups may devolve to probes/scans.",
         suggestion := "Add equality predicates on PK leftmost columns " ++
           pyReprStrList (entry.pk.take 2) ++
           " when feasible, or create a secondary index starting with " ++
           pyReprStrList entry.pred_eq_cols ++ "." }]
    else []) ++
      (if entry.best_eq_pfx = 0 ∧ entry.indexes ≠ [] then
        [{ severity := some "HIGH", rule := "INDEX_MISALIGNED",
           message := "HT table '" ++ entry.table ++
             "': equality predicates do not cover leftmost columns of any existing index.",
           suggestion := "Create or reorder index to start with equality columns: " ++
             pyReprStrList entry.pred_eq_cols ++
             ". Put most selective equality column first." }]
      else []) ++
      (if entry.order_by_pfx = 0 ∧ pq.order_by ≠ [] ∧ entry.indexes ≠ [] then
        [{ severity := some "MEDIUM", rule := "ORDER_MISALIGNED",
           message := "HT table '" ++ entry.table ++ "': ORDER BY [" ++
             pyJoin ", " (pq.order_by.map Prod.fst) ++
             "] not aligned to PK/index left prefix.",
           suggestion := "Align ORDER BY to PK/index prefix and add LIMIT/FETCH (Top-K / seek pagination) to enable early termination." }]
      else [])

/-- Rule 8: JOIN-pattern hint. -/
def joinPatternSegment (pq : ParsedQueryU) : List UFinding :=
  if pq.joins ≠ [] ∧ !pq.has_exists then
    [{ severity := some "MEDIUM", rule := "JOIN_PATTERN",
       message := "Query uses " ++ toString pq.joins.length ++
         " JOIN(s) - consider if EXISTS would be more appropriate.",
       suggestion := "If right side is not unique on join keys, use EXISTS to avoid row multiplication and potentially faster execution." }]
  else []

/-- `analyze_query(pq, meta, coverage)` (rules.py lines 272-471): the
sequential `findings.append`/`findings +=` blocks concatenated in source
order. -/
def analyze_query (pq : ParsedQueryU) (meta : List (String × TableMetaU))
    (coverage : List CoverageU) : List UFinding :=
  purgeSegment pq ++ noFilterSegment pq ++ noWhereSegment pq ++
    joinOnSegment pq ++ distinctSegment pq ++ orderSegment pq ++
    nonSargSegment pq ++ wideSegment pq ++ bindSegment pq ++
    typeSegment pq meta ++ coverage.flatMap (coverageEntrySegment pq) ++
    joinPatternSegment pq ++ analyze_ht_dml_rules pq meta ++
    analyze_ht_payload_rules pq meta

/-! ### `sql_analysis/rules_stored_proc.py` -/

/-- The metadata keys read by `analyze_stored_proc_performance`. -/
structure ProcMeta where
  query_text : String := ""
  total_elapsed_time : Option Rat := none
  duration_ms : Option Rat := none
deriving DecidableEq

/-- `total_ms = metadata.get('TOTAL_ELAPSED_TIME', 0) or
metadata.get('DURATION_MS', 0)`; `total_sec = total_ms / 1000.0 if
total_ms else 0`. -/
def procTotalSec (m : ProcMeta) : Rat :=
  let total_ms :=
    if m.total_elapsed_time.getD 0 ≠ 0 then m.total_elapsed_time.getD 0
    else m.duration_ms.getD 0
  if total_ms ≠ 0 then total_ms / 1000 else 0

/-- The group class `[a-z0-9_\.]` of the CALL pattern (the text is
lower-cased before the search). -/
def isProcNameChar (c : Char) : Bool :=
  c.isLower || c.isDigit || c == '_' || c == '.'

/-- Match `call\s+([a-z0-9_\.]+)\s*\(` at the head of `s`, returning the
group. -/
def callMatchAt (s : List Char) : Option (List Char) :=
  match listStartsWith "call".data s with
  | none => none
  | some r0 =>
    let r1 := r0.dropWhile isPySpace
    if r1.length = r0.length then none
    else
      let pname := r1.takeWhile isProcNameChar
      if pname.isEmpty then none
      else match (r1.dropWhile isProcNameChar).dropWhile isPySpace with
        | '(' :: _ => some pname
        | _ => none

/-- `re.search` for the CALL pattern. -/
def callSearch : List Char → Option (List Char)
  | [] => none
  | c :: cs =>
    match callMatchAt (c :: cs) with
    | some g => some g
    | none => callSearch cs

/-- `is_stored_proc_call(query_text)` (rules_stored_proc.py lines
24-42). -/
def is_stored_proc_call (query_text : String) : Option String :=
  if query_text = "" then none
  else (callSearch (pyStrip (pyLower query_text)).data).map String.mk

/-- Child query row fields read by `classify_child_bottleneck` (each
`row.get(k) or row.get(K)` chain resolved to one field). -/
structure ChildRow where
  description : String := ""
  total_sec : Rat := 0
  access_kv : Bool := false
  dur_queued_load : Rat := 0
deriving DecidableEq

/-- Child HT-stats fields read by `classify_child_bottleneck`. -/
structure ChildStat where
  total_sec : Rat := 0
  fdb_throttle_ms : Rat := 0
  spill_remote_bytes : Rat := 0
  spill_local_bytes : Rat := 0
deriving DecidableEq

/-- Exact `floor(log(n, 1024))` for a positive rational (the source
computes it through floats; the shallow embedding is exact). -/
def floorLog1024 (n : Rat) : Int :=
  if n ≥ 1 then (Nat.log 1024 n.floor.toNat : Int)
  else -(Nat.clog 1024 (1 / n).ceil.toNat : Int)

/-- `human_bytes(n)` (rules_stored_proc.py lines 14-21); a negative index
into `units` wraps as in Python (an index below `-6`, unreachable from
the callers, would raise and is rendered as an empty unit). -/
def human_bytes (n : Rat) : String :=
  if n ≤ 0 then "0 B"
  else
    let units := ["B", "KB", "MB", "GB", "TB", "PB"]
    let i : Int := min (floorLog1024 n) 5
    let j : Int := if i < 0 then i + 6 else i
    fmtFixed 2 (n / (1024 : Rat) ^ i) ++ " " ++ units.getD j.toNat ""

/-- The per-row classification step of `classify_child_bottleneck`. -/
def childRowStep (b : Breakdown) (row : ChildRow) : Breakdown :=
  let desc := pyLower row.description
  let b :=
    if strContains desc "copy into" || strContains desc "copy from" then
      { b with copy_sec := b.copy_sec + row.total_sec }
    else if row.access_kv ∧ (strContains desc "merge" ||
        strContains desc "update" || strContains desc "delete" ||
        strContains desc "insert") then
      { b with ht_dml_sec := b.ht_dml_sec + row.total_sec }
    else if strContains desc "merge" || strContains desc "update" ||
        strContains desc "delete" || strContains desc "insert" then
      { b with other_dml_sec := b.other_dml_sec + row.total_sec }
    else { b with other_sec := b.other_sec + row.total_sec }
  { b with queued_sec := b.queued_sec + row.dur_queued_load / 1000 }

/-- The per-stats step of `classify_child_bottleneck`
(`throttle_ratio = fdb_throttle_ms / (total_sec * 1000)`). -/
def childStatStep (b : Breakdown) (kv : String × ChildStat) : Breakdown :=
  let st := kv.2
  if st.total_sec ≤ 0 then b
  else
    { b with
      max_throttle := max b.max_throttle
        (st.fdb_throttle_ms / (st.total_sec * 1000)),
      max_spill_bytes := max (max b.max_spill_bytes st.spill_remote_bytes)
        st.spill_local_bytes }

/-- `classify_child_bottleneck(child_rows, child_stats,
total_parent_sec)` (rules_stored_proc.py lines 45-131). -/
def classify_child_bottleneck (child_rows : List ChildRow)
    (child_stats : List (String × ChildStat)) (total_parent_sec : Rat) :
    List String × Breakdown :=
  if child_rows.isEmpty then ([], {})
  else
    let bd := child_stats.foldl childStatStep
      (child_rows.foldl childRowStep {})
    let labels :=
      (if bd.copy_sec ≥ 0.6 * total_parent_sec then
        ["COPY bottleneck → combine files into 100-250MB chunks; ensure same-region stage; batch COPY operations"]
      else []) ++
        (if bd.ht_dml_sec ≥ 0.6 * total_parent_sec then
          ["HT DML bottleneck → prune unnecessary secondary indexes; align index keys to predicates; batch commits; use bulk-load on empty tables"]
        else []) ++
        (if bd.queued_sec ≥ 0.1 * total_parent_sec then
          ["Warehouse queuing → upsize warehouse; enable multi-cluster; schedule off-peak"]
        else []) ++
        (if bd.max_throttle ≥ 0.30 then
          ["HT throttling ≥30% → pause concurrent HT churn; improve index coverage; project only needed columns"]
        else if bd.max_throttle ≥ 0.15 then
          ["HT throttling ≥15% → reduce concurrent writes; verify index alignment"]
        else []) ++
        (if bd.max_spill_bytes > 0 then
          (if bd.max_spill_bytes ≥ 1024 ^ 3 then
            ["Remote/Local spill (" ++ human_bytes bd.max_spill_bytes ++
              ") → reduce intermediates; upsize warehouse; add LIMIT/Top-K"]
          else if bd.max_spill_bytes ≥ 128 * 1024 ^ 2 then
            ["Local spill (" ++ human_bytes bd.max_spill_bytes ++
              ") → consider upsizing or reducing intermediate volume"]
          else [])
        else [])
    (labels, bd)

/-- The remediation block attached to both stored-procedure findings
(identical literals in the source). -/
def procRemediation : String :=
  "\n" ++
    "**Why Stored Procedures Are Problematic for Hybrid Tables:**\n" ++
    "\n" ++
    "• **Row-by-row processing:** Stored procedures often encourage row-by-row or file-by-file loops, which defeat set-based execution and amplify Hybrid Table probe and index maintenance costs.\n" ++
    "\n" ++
    "• **Obscured telemetry:** They obscure query plans and telemetry (fewer direct UUIDs/REQUEST_IDs), making HT bottlenecks (throttling, lock waits, spill) harder to diagnose and optimize.\n" ++
    "\n" ++
    "• **Increased lock contention:** Long, monolithic transactions inside procedures increase lock contention and HT write-amplification (every secondary index is updated for each DML).\n" ++
    "\n" ++
    "• **Missed bulk optimizations:** Procedural orchestration tends to run serial COPY/DML instead of bulk loads and batched MERGE/INSERT, missing HT bulk-load paths and efficient commit patterns.\n" ++
    "\n" ++
    "• **Anti-pattern enabler:** They make it easy to create small-file COPY anti-patterns and non-covering index probes, both of which drastically slow HT workloads.\n" ++
    "\n" ++
    "**Recommended Approach:**\n" ++
    "Refactor to set-based SQL (staging + single COPY/MERGE per batch), align indexes to equality predicates, and batch commits. This typically outperforms stored-proc patterns on Hybrid Tables by 10-100x.\n"

/-- `analyze_stored_proc_performance(metadata, child_queries,
child_stats)` (rules_stored_proc.py lines 133-257). -/
def analyze_stored_proc_performance (m : ProcMeta)
    (child_queries : Option (List ChildRow))
    (child_stats : Option (List (String × ChildStat))) : List UFinding :=
  let total_sec := procTotalSec m
  match is_stored_proc_call m.query_text with
  | none => []
  | some proc_name =>
    if total_sec < 60 then
      [{ rule := "STORED_PROCEDURE_DETECTED",
         checkName := some "Stored Procedure Architecture",
         category := some "Architecture", severity := some "HIGH",
         message := "Stored procedure call detected: " ++ proc_name,
         suggestion := "Refactor to set-based SQL for better HT performance. Replace row-by-row loops with bulk operations (staging + MERGE/INSERT). Align indexes to equality predicates and batch commits.",
         contextStr := some ("Execution time: " ++ fmtFixed 1 total_sec ++
           "s (acceptable, but stored procedures have critical architectural concerns for Hybrid Tables)"),
         remediation := some procRemediation }]
    else
      let severity : Option String :=
        if total_sec ≥ 3600 then some "CRITICAL"
        else if total_sec ≥ 1800 then some "HIGH"
        else if total_sec ≥ 600 then some "MEDIUM"
        else if total_sec ≥ 60 then some "MEDIUM"
        else none
      let lb : List String × Option Breakdown :=
        match child_queries with
        | some cq =>
          if cq.isEmpty then ([], none)
          else
            let r := classify_child_bottleneck cq
              (match child_stats with | some s => s | none => []) total_sec
            (r.1, some r.2)
        | none => ([], none)
      let suggestion :=
        if lb.1 ≠ [] then
          pyJoin " | " lb.1 ++
            " | Consider refactoring to set-based SQL with staging + bulk MERGE/INSERT instead of procedural loops."
        else
          "Refactor to set-based SQL (staging + MERGE/INSERT) instead of procedural logic. This eliminates row-by-row overhead and improves HT performance by 10-100x."
      let context := "Stored procedure: " ++ proc_name ++
        (match lb.2 with
         | some bd =>
           "\nCOPY: " ++ fmtFixed 1 bd.copy_sec ++ "s, HT DML: " ++
             fmtFixed 1 bd.ht_dml_sec ++ "s, Other DML: " ++
             fmtFixed 1 bd.other_dml_sec ++ "s, Queued: " ++
             fmtFixed 1 bd.queued_sec ++ "s"
         | none => "")
      [{ rule := "SLOW_STORED_PROC",
         checkName := some "Stored Procedure Performance",
         category := some "Performance", severity := severity,
         message := "Stored procedure ran for " ++ fmtFixed 0 total_sec ++
           "s (" ++ fmtFixed 1 (total_sec / 60) ++ " minutes)",
         suggestion := suggestion, contextStr := some context,
         breakdown := lb.2, proc_name := some proc_name,
         remediation := some procRemediation }]

/-! ### Concrete inputs for the unistore claims -/

/-- ASCII identifier characters; hypotheses of the sargability claim
restrict column and literal names to them. -/
def identChars : List Char :=
  "ABCDEFGHIJKLMNOPQRSTUVWXYZabcdefghijklmnopqrstuvwxyz0123456789_".data

/-- A parsed query with no WHERE/IN/EXISTS/HAVING/QUALIFY and no other
structure (defaults everywhere). -/
def cexPQU : ParsedQueryU := {}

/-- A two-minute CALL statement. -/
def cexProcMeta : ProcMeta :=
  { query_text := "call db.proc(1)", total_elapsed_time := some 120000 }

/-- Predicate comparing a column to a function of a literal
(`email = UPPER('x')`). -/
def exPredLit : PredU :=
  { left := "email", op := "EQ", right := "UPPER('x')",
    raw := "email = UPPER('x')" }

/-- Predicate applying a function to the column (`UPPER(email) = 'x'`). -/
def exPredCol : PredU :=
  { left := "UPPER(email)", op := "EQ", right := "'x'",
    raw := "UPPER(email) = 'x'" }

end URules

end HTAnalysis

-- ===========================================================================
-- Further definitions are inserted above this marker; theorems follow below.
-- ===========================================================================

namespace HTAnalysis

/-! ## Theorems: association-list dictionaries -/

theorem dictGet?_dictInsert {α : Type} (d : List (String × α)) (k k' : String)
    (v : α) :
    dictGet? (dictInsert d k v) k' = if k = k' then some v else dictGet? d k' := by
  induction d with
  | nil => simp [dictInsert, dictGet?]
  | cons hd tl ih =>
    obtain ⟨k₀, v₀⟩ := hd
    simp only [dictInsert]
    by_cases h0 : k₀ = k
    · subst h0
      simp only [if_pos rfl, dictGet?]
      by_cases h : k₀ = k' <;> simp [h]
    · rw [if_neg h0]
      simp only [dictGet?]
      by_cases h : k₀ = k'
      · subst h
        rw [if_pos rfl, if_neg (fun he => h0 he.symm)]
        simp [dictGet?]
      · rw [if_neg h, ih]
        simp [dictGet?, h]

/-! ## Theorems: coverage scoring -/

namespace Coverage

theorem dictGet?_normStep (m : List (String × ColOp)) (p : Pred) (col : String) :
    dictGet? (normStep m p) col =
      match classifyPred p with
      | some cv => if cv.1 = col then some cv.2 else dictGet? m col
      | none => dictGet? m col := by
  unfold normStep classifyPred
  by_cases hleft : p.left = ""
  · simp [hleft]
  · by_cases heq : pyUpper p.op = "EQ" ∨ pyUpper p.op = "EQUAL"
    · simp only [if_neg hleft, if_pos heq]
      rw [dictGet?_dictInsert]
    · by_cases hrange : (["GT", "LT", "GTE", "LTE", "BETWEEN", "LIKE", "IN",
          "NEQ", "NOT_EQ"].contains (pyUpper p.op)) = true
      · simp only [if_neg hleft, if_neg heq, hrange, if_true]
        rw [dictGet?_dictInsert]
      · simp only [if_neg hleft, if_neg heq, hrange, Bool.false_eq_true,
          if_false]

theorem normalizePredicates_foldl_get (preds : List Pred) :
    ∀ (m : List (String × ColOp)) (acc : Option ColOp) (col : String),
      dictGet? m col = acc →
      dictGet? (preds.foldl normStep m) col =
      preds.foldl
        (fun acc p =>
          match classifyPred p with
          | some cv => if cv.1 = col then some cv.2 else acc
          | none => acc) acc := by
  induction preds with
  | nil => intro m acc col h; simpa using h
  | cons p rest ih =>
    intro m acc col h
    simp only [List.foldl_cons]
    apply ih
    rw [dictGet?_normStep]
    cases classifyPred p with
    | none => exact h
    | some cv =>
      by_cases hc : cv.1 = col <;> simp [hc, h]

theorem eqPfxAux_le (m : List (String × ColOp)) :
    ∀ (cols : List String) (i eq : Nat),
      (eqPfxAux m cols i eq).1 ≤ eq + cols.length := by
  intro cols
  induction cols with
  | nil => intro i eq; simp [eqPfxAux]
  | cons c rest ih =>
    intro i eq
    simp only [eqPfxAux]
    cases predOpFor m c with
    | none => simp
    | some op =>
      cases op with
      | EQ =>
        have := ih (i + 1) (eq + 1)
        simp only [List.length_cons]
        omega
      | RANGE => simp

theorem eqPfxAux_ge (m : List (String × ColOp)) :
    ∀ (cols : List String) (i eq : Nat), eq ≤ (eqPfxAux m cols i eq).1 := by
  intro cols
  induction cols with
  | nil => intro i eq; simp [eqPfxAux]
  | cons c rest ih =>
    intro i eq
    simp only [eqPfxAux]
    cases predOpFor m c with
    | none => simp
    | some op =>
      cases op with
      | EQ => exact le_trans (Nat.le_succ eq) (ih (i + 1) (eq + 1))
      | RANGE => simp

theorem predOpFor_dictInsert_EQ (m : List (String × ColOp)) (c col : String)
    (h : predOpFor m col = some ColOp.EQ) :
    predOpFor (dictInsert m c ColOp.EQ) col = some ColOp.EQ := by
  unfold predOpFor at h ⊢
  rw [dictGet?_dictInsert]
  by_cases h1 : c = col
  · simp [h1]
  · rw [if_neg h1]
    cases hg : dictGet? m col with
    | some v => rw [hg] at h; simpa using h
    | none =>
      rw [hg] at h
      simp only at h
      rw [dictGet?_dictInsert]
      by_cases h2 : c = stripQuotes col <;> simp [h2, h]

theorem eqPfxAux_mono (m : List (String × ColOp)) (c : String) :
    ∀ (cols : List String) (i eq : Nat),
      (eqPfxAux m cols i eq).1 ≤ (eqPfxAux (dictInsert m c ColOp.EQ) cols i eq).1 := by
  intro cols
  induction cols with
  | nil => intro i eq; simp [eqPfxAux]
  | cons c0 rest ih =>
    intro i eq
    simp only [eqPfxAux]
    cases hop : predOpFor m c0 with
    | none =>
      simp only
      cases hop' : predOpFor (dictInsert m c ColOp.EQ) c0 with
      | none => simp
      | some op' =>
        cases op' with
        | EQ =>
          simp only
          exact le_trans (Nat.le_succ eq) (eqPfxAux_ge _ _ _ _)
        | RANGE => simp
    | some op =>
      cases op with
      | EQ =>
        rw [predOpFor_dictInsert_EQ m c c0 hop]
        simp only
        exact ih (i + 1) (eq + 1)
      | RANGE =>
        simp only
        cases hop' : predOpFor (dictInsert m c ColOp.EQ) c0 with
        | none => simp
        | some op' =>
          cases op' with
          | EQ =>
            simp only
            exact le_trans (Nat.le_succ eq) (eqPfxAux_ge _ _ _ _)
          | RANGE => simp

theorem bestStep_fst_le (m : List (String × ColOp))
    (acc : Int × Option (List String) × Option Nat) (idx : List String) :
    acc.1 ≤ (bestStep m acc idx).1 := by
  unfold bestStep
  by_cases h : ((eqPrefixForIndex m idx).1 : Int) > acc.1
  · simp only [h, if_true]
    exact le_of_lt h
  · simp [h]

theorem bestStep_fst_ge_eqp (m : List (String × ColOp))
    (acc : Int × Option (List String) × Option Nat) (idx : List String) :
    ((eqPrefixForIndex m idx).1 : Int) ≤ (bestStep m acc idx).1 := by
  unfold bestStep
  by_cases h : ((eqPrefixForIndex m idx).1 : Int) > acc.1
  · simp [h]
  · simp only [h, if_false]
    omega

/-- The best-index fold never decreases the running best score. -/
theorem bestLoop_foldl_mono (m : List (String × ColOp)) :
    ∀ (idxs : List (List String)) (acc : Int × Option (List String) × Option Nat),
      acc.1 ≤ (idxs.foldl (bestStep m) acc).1 := by
  intro idxs
  induction idxs with
  | nil => intro acc; simp
  | cons idx rest ih =>
    intro acc
    simp only [List.foldl_cons]
    exact le_trans (bestStep_fst_le m acc idx) (ih _)

theorem bestLoop_foldl_ge_mem (m : List (String × ColOp)) :
    ∀ (idxs : List (List String)) (acc : Int × Option (List String) × Option Nat)
      (idx : List String), idx ∈ idxs →
      ((eqPrefixForIndex m idx).1 : Int) ≤ (idxs.foldl (bestStep m) acc).1 := by
  intro idxs
  induction idxs with
  | nil => intro acc idx h; simp at h
  | cons i0 rest ih =>
    intro acc idx h
    rcases List.mem_cons.mp h with h1 | h1
    · subst h1
      simp only [List.foldl_cons]
      exact le_trans (bestStep_fst_ge_eqp m acc idx) (bestLoop_foldl_mono m rest _)
    · simp only [List.foldl_cons]
      exact ih _ idx h1

theorem bestLoop_foldl_attained (m : List (String × ColOp)) :
    ∀ (idxs : List (List String)) (acc : Int × Option (List String) × Option Nat),
      (idxs.foldl (bestStep m) acc).1 = acc.1 ∨
      ∃ idx ∈ idxs,
        (idxs.foldl (bestStep m) acc).1 = ((eqPrefixForIndex m idx).1 : Int) := by
  intro idxs
  induction idxs with
  | nil => intro acc; left; rfl
  | cons i0 rest ih =>
    intro acc
    simp only [List.foldl_cons]
    rcases ih (bestStep m acc i0) with h | ⟨idx, hmem, heq⟩
    · unfold bestStep at h
      by_cases hgt : ((eqPrefixForIndex m i0).1 : Int) > acc.1
      · right
        refine ⟨i0, List.mem_cons_self _ _, ?_⟩
        simp only [hgt, if_true] at h
        simpa [bestStep, hgt] using h
      · left
        simp only [hgt, if_false] at h
        simpa [bestStep, hgt] using h
    · right
      exact ⟨idx, List.mem_cons_of_mem _ hmem, heq⟩

theorem scoreTable_best_eq_pfx (predOps : List (String × ColOp))
    (orderCols : List String) (t : String) (info : TableInfo) :
    (scoreTable predOps orderCols t info).best_eq_pfx =
      (max (bestLoop predOps (candidateIndexes info)).1 0).toNat := rfl

theorem scoreTable_best_index (predOps : List (String × ColOp))
    (orderCols : List String) (t : String) (info : TableInfo) :
    (scoreTable predOps orderCols t info).best_index =
      (bestLoop predOps (candidateIndexes info)).2.1 := rfl

/-! ### Claim theorems for the coverage scorer -/

/-- C1: for every parsed query and every table entry in the metadata map, the
coverage row produced by `score_indexes_for_tables` satisfies
`best_eq_prefix = max over the candidate indexes (PK prepended to the
declared secondary indexes) of eq_prefix(index)`; if the table has no
candidate index at all, `best_eq_prefix = 0` and `best_index = None`.  The
maximum is expressed as: the score dominates every candidate and, when a
candidate exists, is attained by one of them. -/
theorem claim1_best_eq_pfx_is_max (pq : ParsedQueryCov)
    (meta : List (String × TableInfo)) (t : String) (info : TableInfo)
    (hmem : (t, info) ∈ meta) :
    scoreTable (normalizePredicates pq.predicates) (pq.order_by.map Prod.fst)
      t info ∈ scoreIndexesForTables pq meta ∧
    (∀ idx ∈ candidateIndexes info,
      (eqPrefixForIndex (normalizePredicates pq.predicates) idx).1 ≤
        (scoreTable (normalizePredicates pq.predicates)
          (pq.order_by.map Prod.fst) t info).best_eq_pfx) ∧
    (candidateIndexes info ≠ [] →
      ∃ idx ∈ candidateIndexes info,
        (scoreTable (normalizePredicates pq.predicates)
          (pq.order_by.map Prod.fst) t info).best_eq_pfx =
          (eqPrefixForIndex (normalizePredicates pq.predicates) idx).1) ∧
    (candidateIndexes info = [] →
      (scoreTable (normalizePredicates pq.predicates)
          (pq.order_by.map Prod.fst) t info).best_eq_pfx = 0 ∧
      (scoreTable (normalizePredicates pq.predicates)
          (pq.order_by.map Prod.fst) t info).best_index = none) := by
  set m := normalizePredicates pq.predicates with hm
  refine ⟨?_, ?_, ?_, ?_⟩
  · unfold scoreIndexesForTables
    rw [← hm]
    exact List.mem_map_of_mem (fun ti => scoreTable m (pq.order_by.map Prod.fst) ti.1 ti.2) hmem
  · intro idx hidx
    rw [scoreTable_best_eq_pfx]
    have h1 : ((eqPrefixForIndex m idx).1 : Int) ≤
        (bestLoop m (candidateIndexes info)).1 :=
      bestLoop_foldl_ge_mem m (candidateIndexes info) (-1, none, none) idx hidx
    have h2 : ((eqPrefixForIndex m idx).1 : Int) ≤
        max (bestLoop m (candidateIndexes info)).1 0 :=
      le_trans h1 (le_max_left _ _)
    have h3 := Int.toNat_le_toNat h2
    simpa using h3
  · intro hne
    rw [scoreTable_best_eq_pfx]
    rcases bestLoop_foldl_attained m (candidateIndexes info) (-1, none, none)
      with h | ⟨idx, hidx, heq⟩
    · exfalso
      obtain ⟨c0, hc0⟩ := List.exists_mem_of_ne_nil _ hne
      have hge := bestLoop_foldl_ge_mem m (candidateIndexes info) (-1, none, none) c0 hc0
      rw [h] at hge
      simp only at hge
      omega
    · refine ⟨idx, hidx, ?_⟩
      unfold bestLoop
      rw [heq]
      omega
  · intro hnil
    rw [scoreTable_best_eq_pfx, scoreTable_best_index, hnil]
    constructor <;> rfl

/-- C1 witness: instantiating `claim1_best_eq_pfx_is_max` at the concrete
query `exPQ1` and metadata map `exMeta1`. -/
theorem claim1_witness :
    (("t", exInfo1) ∈ exMeta1) ∧
    (scoreTable (normalizePredicates exPQ1.predicates)
        (exPQ1.order_by.map Prod.fst) "t" exInfo1 ∈
        scoreIndexesForTables exPQ1 exMeta1 ∧
      (∀ idx ∈ candidateIndexes exInfo1,
        (eqPrefixForIndex (normalizePredicates exPQ1.predicates) idx).1 ≤
          (scoreTable (normalizePredicates exPQ1.predicates)
            (exPQ1.order_by.map Prod.fst) "t" exInfo1).best_eq_pfx) ∧
      (candidateIndexes exInfo1 ≠ [] →
        ∃ idx ∈ candidateIndexes exInfo1,
          (scoreTable (normalizePredicates exPQ1.predicates)
            (exPQ1.order_by.map Prod.fst) "t" exInfo1).best_eq_pfx =
            (eqPrefixForIndex (normalizePredicates exPQ1.predicates) idx).1) ∧
      (candidateIndexes exInfo1 = [] →
        (scoreTable (normalizePredicates exPQ1.predicates)
            (exPQ1.order_by.map Prod.fst) "t" exInfo1).best_eq_pfx = 0 ∧
        (scoreTable (normalizePredicates exPQ1.predicates)
            (exPQ1.order_by.map Prod.fst) "t" exInfo1).best_index = none)) :=
  ⟨by decide,
    claim1_best_eq_pfx_is_max exPQ1 exMeta1 "t" exInfo1 (by decide)⟩

/-- C4 counterexample: the claim says RANGE wins for a column carrying both an
equality and a range predicate *regardless of order*; but when the range
predicate `a < 5` comes first and the equality `a = 3` second,
`_normalize_predicates` maps column `a` to EQ (Python dict assignment:
last write wins), not RANGE. -/
theorem claim4_counterexample :
    dictGet? (normalizePredicates
      [{ left := "a", right := "5", op := "LT", raw := "a < 5" },
       { left := "a", right := "3", op := "EQ", raw := "a = 3" }]) "a" =
      some ColOp.EQ ∧ ColOp.EQ ≠ ColOp.RANGE := by
  constructor
  · rfl
  · decide

/-- C4 amended: the normalization assigns to each column the class of the
*last* classifiable predicate on that column in list order (so RANGE wins
only when the range predicate appears after the equality predicate; an
equality appearing later overrides an earlier range). -/
theorem claim4_last_predicate_wins (preds : List Pred) (col : String) :
    dictGet? (normalizePredicates preds) col = lastClassFor preds col := by
  unfold normalizePredicates lastClassFor
  exact normalizePredicates_foldl_get preds [] none col rfl

/-- C9: `eq_prefix(index, predicates) ≤ len(index)`, and `eq_prefix` is
monotonically non-decreasing when one more column gains an equality
predicate while everything else in the predicate map is held fixed. -/
theorem claim9_eq_pfx_bounded_monotone (m m' : List (String × ColOp))
    (c : String) (cols : List String) (h : m' = dictInsert m c ColOp.EQ) :
    (eqPrefixForIndex m cols).1 ≤ cols.length ∧
    (eqPrefixForIndex m cols).1 ≤ (eqPrefixForIndex m' cols).1 := by
  constructor
  · simpa using eqPfxAux_le m cols 0 0
  · rw [h]
    exact eqPfxAux_mono m c cols 0 0

/-- C9 witness: instantiating `claim9_eq_pfx_bounded_monotone` at a concrete
predicate map and two-column index. -/
theorem claim9_witness :
    ([("b", ColOp.RANGE), ("a", ColOp.EQ)] =
      dictInsert [("b", ColOp.RANGE)] "a" ColOp.EQ) ∧
    ((eqPrefixForIndex [("b", ColOp.RANGE)] ["a", "b"]).1 ≤
        (["a", "b"] : List String).length ∧
      (eqPrefixForIndex [("b", ColOp.RANGE)] ["a", "b"]).1 ≤
        (eqPrefixForIndex [("b", ColOp.RANGE), ("a", ColOp.EQ)] ["a", "b"]).1) :=
  ⟨by decide,
    claim9_eq_pfx_bounded_monotone [("b", ColOp.RANGE)]
      [("b", ColOp.RANGE), ("a", ColOp.EQ)] "a" ["a", "b"] (by decide)⟩

end Coverage

/-! ## Theorems: the two-run classifier -/

namespace Snowvi

theorem getDelta_bd_total (fa fb : FeatureVec) :
    getDelta (buildDiff fa fb) "total_ms" = fb.total_ms - fa.total_ms := rfl

theorem getDelta_bd_compile (fa fb : FeatureVec) :
    getDelta (buildDiff fa fb) "gs_compile_ms" =
      fb.gs_compile_ms - fa.gs_compile_ms := rfl

theorem getDelta_bd_xp (fa fb : FeatureVec) :
    getDelta (buildDiff fa fb) "xp_ms" = fb.xp_ms - fa.xp_ms := rfl

/-- C2 counterexample: with hashes equal, baseline total duration `0` and a
compile-phase delta of `0.3`, the claim's third step (delta exceeds 50% of
the baseline total duration, i.e. `0.3 > 0`) prescribes `COMPILATION`, but
`classify_run_pair` compares against `0.5 * max(total_a, 1.0) = 0.5` and
falls through to `UNKNOWN`. -/
theorem claim2_counterexample :
    cexFa.sanitized_sql_hash = cexFb.sanitized_sql_hash ∧
    ¬ cexFa.total_ms > 0 ∧
    cexFb.gs_compile_ms - cexFa.gs_compile_ms > 0.5 * cexFa.total_ms ∧
    classifyRunPair cexFa cexFb = some ("UNKNOWN", "", buildDiff cexFa cexFb) := by
  have hd3 : getDelta (buildDiff cexFa cexFb) "gs_compile_ms" = 0.3 := by
    rw [getDelta_bd_compile]
    norm_num [cexFa, cexFb]
  have hdx : getDelta (buildDiff cexFa cexFb) "xp_ms" = 0 := by
    rw [getDelta_bd_xp]
    norm_num [cexFa, cexFb]
  refine ⟨rfl, by norm_num [cexFa], by norm_num [cexFa, cexFb], ?_⟩
  simp only [classifyRunPair, hd3, hdx]
  norm_num [cexFa, cexFb]

/-- C2 amended: the first three steps of the ordered decision list, first
match wins: (1) both hashes present and different → `QUERY_CHANGE`;
(2) otherwise, positive baseline total and totals within 20% of the
baseline → `NO_REGRESSION`; (3) otherwise, compile-phase delta exceeding
50% of `max(baseline total, 1.0)` (not of the bare baseline) →
`COMPILATION`. -/
theorem claim2_decision_list (fa fb : FeatureVec) :
    (fa.sanitized_sql_hash ≠ "" ∧ fb.sanitized_sql_hash ≠ "" ∧
        fa.sanitized_sql_hash ≠ fb.sanitized_sql_hash →
      classifyRunPair fa fb = some ("QUERY_CHANGE", "", buildDiff fa fb)) ∧
    (¬(fa.sanitized_sql_hash ≠ "" ∧ fb.sanitized_sql_hash ≠ "" ∧
        fa.sanitized_sql_hash ≠ fb.sanitized_sql_hash) →
      fa.total_ms > 0 ∧ |fb.total_ms - fa.total_ms| ≤ 0.2 * fa.total_ms →
      classifyRunPair fa fb = some ("NO_REGRESSION", "", buildDiff fa fb)) ∧
    (¬(fa.sanitized_sql_hash ≠ "" ∧ fb.sanitized_sql_hash ≠ "" ∧
        fa.sanitized_sql_hash ≠ fb.sanitized_sql_hash) →
      ¬(fa.total_ms > 0 ∧ |fb.total_ms - fa.total_ms| ≤ 0.2 * fa.total_ms) →
      fb.gs_compile_ms - fa.gs_compile_ms > 0.5 * max fa.total_ms 1 →
      classifyRunPair fa fb = some ("COMPILATION", "", buildDiff fa fb)) := by
  refine ⟨?_, ?_, ?_⟩
  · intro h1
    simp only [classifyRunPair]
    rw [if_pos h1]
  · intro h1 h2
    simp only [classifyRunPair, getDelta_bd_total]
    rw [if_neg h1, if_pos h2]
  · intro h1 h2 h3
    simp only [classifyRunPair, getDelta_bd_total, getDelta_bd_compile]
    rw [if_neg h1, if_neg h2, if_pos h3]

/-- C2 witness: instantiating the first step of `claim2_decision_list` at two
runs with different hashes. -/
theorem claim2_witness :
    (cexFa.sanitized_sql_hash ≠ "" ∧ cexFc.sanitized_sql_hash ≠ "" ∧
      cexFa.sanitized_sql_hash ≠ cexFc.sanitized_sql_hash) ∧
    classifyRunPair cexFa cexFc = some ("QUERY_CHANGE", "", buildDiff cexFa cexFc) :=
  ⟨by decide, (claim2_decision_list cexFa cexFc).1 (by decide)⟩

/-- C10: the two-run classifier is a pure function of its two feature
vectors: equal inputs give identical primary label, secondary cause and
metric-delta report (no randomness, no wall-clock dependence). -/
theorem claim10_classifier_deterministic (fa fb fa' fb' : FeatureVec)
    (h1 : fa = fa') (h2 : fb = fb') :
    classifyRunPair fa fb = classifyRunPair fa' fb' := by
  subst h1
  subst h2
  rfl

/-- C10 witness: instantiating `claim10_classifier_deterministic` at a
concrete pair of runs. -/
theorem claim10_witness :
    cexFa = cexFa ∧ cexFb = cexFb ∧
    classifyRunPair cexFa cexFb = classifyRunPair cexFa cexFb :=
  ⟨rfl, rfl, claim10_classifier_deterministic cexFa cexFb cexFa cexFb rfl rfl⟩

end Snowvi

/-! ## Theorems: the stable descending sort -/

theorem length_insertByDesc {α : Type} (key : α → Int) (x : α) (l : List α) :
    (insertByDesc key x l).length = l.length + 1 := by
  induction l with
  | nil => rfl
  | cons y ys ih =>
    simp only [insertByDesc]
    by_cases h : key y ≥ key x <;> simp [h, ih]

theorem mem_insertByDesc {α : Type} (key : α → Int) (x a : α) (l : List α) :
    a ∈ insertByDesc key x l ↔ a = x ∨ a ∈ l := by
  induction l with
  | nil => simp [insertByDesc]
  | cons y ys ih =>
    simp only [insertByDesc]
    by_cases h : key y ≥ key x
    · rw [if_pos h]
      simp only [List.mem_cons, ih]
      tauto
    · rw [if_neg h]
      simp [List.mem_cons]

theorem length_sortByDesc_aux {α : Type} (key : α → Int) :
    ∀ (l acc : List α),
      (l.foldl (fun acc x => insertByDesc key x acc) acc).length =
        acc.length + l.length := by
  intro l
  induction l with
  | nil => intro acc; simp
  | cons x xs ih =>
    intro acc
    simp only [List.foldl_cons]
    rw [ih, length_insertByDesc]
    simp only [List.length_cons]
    omega

theorem length_sortByDesc {α : Type} (key : α → Int) (l : List α) :
    (sortByDesc key l).length = l.length := by
  unfold sortByDesc
  rw [length_sortByDesc_aux]
  simp

theorem mem_sortByDesc_aux {α : Type} (key : α → Int) :
    ∀ (l acc : List α) (a : α),
      (a ∈ l.foldl (fun acc x => insertByDesc key x acc) acc ↔ a ∈ acc ∨ a ∈ l) := by
  intro l
  induction l with
  | nil => intro acc a; simp
  | cons x xs ih =>
    intro acc a
    simp only [List.foldl_cons]
    rw [ih]
    rw [mem_insertByDesc]
    simp only [List.mem_cons]
    tauto

theorem mem_sortByDesc {α : Type} (key : α → Int) (l : List α) (a : α) :
    a ∈ sortByDesc key l ↔ a ∈ l := by
  unfold sortByDesc
  rw [mem_sortByDesc_aux]
  simp

theorem pairwise_insertByDesc {α : Type} (key : α → Int) (x : α) (l : List α)
    (h : l.Pairwise (fun a b => key b ≤ key a)) :
    (insertByDesc key x l).Pairwise (fun a b => key b ≤ key a) := by
  induction l with
  | nil => simp [insertByDesc]
  | cons y ys ih =>
    rcases List.pairwise_cons.mp h with ⟨hy, hys⟩
    simp only [insertByDesc]
    by_cases hk : key y ≥ key x
    · rw [if_pos hk]
      refine List.pairwise_cons.mpr ⟨?_, ih hys⟩
      intro z hz
      rcases (mem_insertByDesc key x z ys).mp hz with rfl | hz'
      · exact hk
      · exact hy z hz'
    · rw [if_neg hk]
      refine List.pairwise_cons.mpr ⟨?_, h⟩
      intro z hz
      rcases List.mem_cons.mp hz with rfl | hz'
      · omega
      · have := hy z hz'
        omega

theorem pairwise_sortByDesc_aux {α : Type} (key : α → Int) :
    ∀ (l acc : List α),
      acc.Pairwise (fun a b => key b ≤ key a) →
      (l.foldl (fun acc x => insertByDesc key x acc) acc).Pairwise
        (fun a b => key b ≤ key a) := by
  intro l
  induction l with
  | nil => intro acc h; simpa using h
  | cons x xs ih =>
    intro acc h
    simp only [List.foldl_cons]
    exact ih _ (pairwise_insertByDesc key x acc h)

theorem pairwise_sortByDesc {α : Type} (key : α → Int) (l : List α) :
    (sortByDesc key l).Pairwise (fun a b => key b ≤ key a) :=
  pairwise_sortByDesc_aux key l [] (List.Pairwise.nil)

theorem head_max_sortByDesc {α : Type} (key : α → Int) (l : List α) (x : α)
    (hx : (sortByDesc key l).head? = some x) :
    ∀ y ∈ l, key y ≤ key x := by
  intro y hy
  have hmem : y ∈ sortByDesc key l := (mem_sortByDesc key l y).mpr hy
  have hp := pairwise_sortByDesc key l
  cases hs : sortByDesc key l with
  | nil => rw [hs] at hmem; simp at hmem
  | cons z zs =>
    rw [hs] at hx hmem hp
    simp only [List.head?_cons, Option.some.injEq] at hx
    subst hx
    rcases List.mem_cons.mp hmem with rfl | hmem'
    · omega
    · exact (List.pairwise_cons.mp hp).1 y hmem'

/-! ## Theorems: rules_enhanced findings and ranking -/

namespace RulesEnh

open Coverage

theorem dictGet?_annotateTop (expl : String) (score : Int) (f : Finding)
    (k : String) (h1 : k ≠ "primary_cause_explanation")
    (h2 : k ≠ "primary_cause_score") :
    dictGet? (annotateTop expl score f) k = dictGet? f k := by
  unfold annotateTop
  rw [dictGet?_dictInsert, if_neg (fun h => h2 h.symm),
    dictGet?_dictInsert, if_neg (fun h => h1 h.symm)]

theorem getStr_annotateTop (expl : String) (score : Int) (f : Finding)
    (k dflt : String) (h1 : k ≠ "primary_cause_explanation")
    (h2 : k ≠ "primary_cause_score") :
    getStr (annotateTop expl score f) k dflt = getStr f k dflt := by
  unfold getStr
  rw [dictGet?_annotateTop _ _ _ _ h1 h2]

/-- C7 counterexample: `rank_primary_cause`, given runtime metrics, returns a
findings state in which the top finding has gained the
`primary_cause_explanation` and `primary_cause_score` keys — the input
record was mutated, refuting "Finding records are never mutated after
creation". -/
theorem claim7_counterexample :
    (rank_primary_cause [cexFinding] (some cexMetrics)).1 ≠ [cexFinding] ∧
    (rank_primary_cause [cexFinding] (some cexMetrics)).1 =
      [cexFinding ++ [("primary_cause_explanation", FVal.S "m"),
        ("primary_cause_score", FVal.I 30)]] := by
  constructor
  · decide
  · decide

/-- Full characterization of `rank_primary_cause`: without runtime metrics
or findings nothing changes; otherwise exactly the top-scored finding is
annotated in place. -/
theorem rank_primary_cause_spec (findings : List Finding)
    (rm : Option RuntimeMetrics) :
    (rm = none → (rank_primary_cause findings rm).1 = findings) ∧
    (findings = [] → (rank_primary_cause findings rm).1 = findings) ∧
    (∀ r, rm = some r → findings ≠ [] →
      ∃ i top,
        findings.get? i = some top ∧
        (∀ g ∈ findings, findingScore r g ≤ findingScore r top) ∧
        (rank_primary_cause findings rm).1 =
          findings.set i
            (annotateTop (primaryExplanation r top) (findingScore r top) top) ∧
        (rank_primary_cause findings rm).2 =
          some (annotateTop (primaryExplanation r top) (findingScore r top) top) ∧
        (∀ j, j ≠ i →
          (rank_primary_cause findings rm).1.get? j = findings.get? j)) := by
  refine ⟨?_, ?_, ?_⟩
  · intro h
    subst h
    by_cases hf : findings = [] <;> simp [rank_primary_cause, hf]
  · intro h
    subst h
    simp [rank_primary_cause]
  · intro r hrm hne
    subst hrm
    have hlen : (sortByDesc (fun t => t.1)
        (findings.enum.map (fun p => (findingScore r p.2, p.1, p.2)))).length =
        findings.length := by
      rw [length_sortByDesc, List.length_map, List.enum_length]
    cases hs : (sortByDesc (fun t => t.1)
        (findings.enum.map (fun p => (findingScore r p.2, p.1, p.2)))).head? with
    | none =>
      exfalso
      rw [List.head?_eq_none_iff] at hs
      rw [hs] at hlen
      simp only [List.length_nil] at hlen
      exact hne (List.length_eq_zero.mp hlen.symm)
    | some t =>
      obtain ⟨s, i, top⟩ := t
      have htmem : (s, i, top) ∈ sortByDesc (fun t => t.1)
          (findings.enum.map (fun p => (findingScore r p.2, p.1, p.2))) := by
        cases hl : sortByDesc (fun t => t.1)
            (findings.enum.map (fun p => (findingScore r p.2, p.1, p.2))) with
        | nil => rw [hl] at hs; simp at hs
        | cons z zs =>
          rw [hl] at hs
          simp only [List.head?_cons, Option.some.injEq] at hs
          rw [hs]
          exact List.mem_cons_self _ _
      have htmem' := (mem_sortByDesc _ _ _).mp htmem
      rw [List.mem_map] at htmem'
      obtain ⟨p, hpmem, hpeq⟩ := htmem'
      obtain ⟨j, g⟩ := p
      cases hpeq
      have hget : findings[j]? = some g :=
        List.mk_mem_enum_iff_getElem?.mp hpmem
      refine ⟨j, g, ?_, ?_, ?_, ?_, ?_⟩
      · rw [List.get?_eq_getElem?]
        exact hget
      · intro g hg
        obtain ⟨jg, hjg⟩ := List.mem_iff_getElem?.mp hg
        have : (findingScore r g, jg, g) ∈
            findings.enum.map (fun p => (findingScore r p.2, p.1, p.2)) := by
          rw [List.mem_map]
          exact ⟨(jg, g), List.mk_mem_enum_iff_getElem?.mpr hjg, rfl⟩
        exact head_max_sortByDesc _ _ _ hs _ this
      · simp only [rank_primary_cause, if_neg hne]
        rw [hs]
      · simp only [rank_primary_cause, if_neg hne]
        rw [hs]
      · intro j hj
        simp only [rank_primary_cause, if_neg hne]
        rw [hs]
        simp only
        rw [List.get?_set_ne _ _ (fun h => hj h.symm)]

/-- C7 amended: rule-engine checks return fresh finding dicts, but the
primary-cause ranking pass is the exception: with runtime metrics supplied
and a non-empty findings list it writes `primary_cause_explanation` and
`primary_cause_score` into the single top-scored finding in place, leaving
every other finding unchanged; with no (falsy) runtime metrics, or no
findings, it mutates nothing. -/
theorem claim7_rank_mutates_only_top (findings : List Finding)
    (rm : Option RuntimeMetrics) :
    (rm = none → (rank_primary_cause findings rm).1 = findings) ∧
    (findings = [] → (rank_primary_cause findings rm).1 = findings) ∧
    (∀ r, rm = some r → findings ≠ [] →
      ∃ i top,
        findings.get? i = some top ∧
        (∀ g ∈ findings, findingScore r g ≤ findingScore r top) ∧
        (rank_primary_cause findings rm).1 =
          findings.set i
            (annotateTop (primaryExplanation r top) (findingScore r top) top) ∧
        (rank_primary_cause findings rm).2 =
          some (annotateTop (primaryExplanation r top) (findingScore r top) top) ∧
        (∀ j, j ≠ i →
          (rank_primary_cause findings rm).1.get? j = findings.get? j)) :=
  rank_primary_cause_spec findings rm

/-- C7 witness: instantiating `claim7_rank_mutates_only_top` at the concrete
finding and metrics of the counterexample. -/
theorem claim7_witness :
    (some cexMetrics = some cexMetrics ∧ ([cexFinding] : List Finding) ≠ []) ∧
    (∃ i top,
      ([cexFinding] : List Finding).get? i = some top ∧
      (∀ g ∈ ([cexFinding] : List Finding),
        findingScore cexMetrics g ≤ findingScore cexMetrics top) ∧
      (rank_primary_cause [cexFinding] (some cexMetrics)).1 =
        ([cexFinding] : List Finding).set i
          (annotateTop (primaryExplanation cexMetrics top)
            (findingScore cexMetrics top) top) ∧
      (rank_primary_cause [cexFinding] (some cexMetrics)).2 =
        some (annotateTop (primaryExplanation cexMetrics top)
          (findingScore cexMetrics top) top) ∧
      (∀ j, j ≠ i →
        (rank_primary_cause [cexFinding] (some cexMetrics)).1.get? j =
          ([cexFinding] : List Finding).get? j)) :=
  ⟨⟨rfl, by decide⟩,
    (claim7_rank_mutates_only_top [cexFinding] (some cexMetrics)).2.2 cexMetrics
      rfl (by decide)⟩

/-! ### Which findings claim "zero indexes", and their provenance -/

theorem rule_of_summary (a b : List String) :
    getStr (multiHtSummary a b) "rule" "" = "MULTIPLE_HT_TABLES_NO_INDEXES" := by
  simp [multiHtSummary, getStr, dictGet?]

theorem rule_of_mixed (cov : List CoverageRow) (ctes : List String) (f : Finding)
    (h : check_mixed_ht_standard_tables cov ctes = some f) :
    getStr f "rule" "" = "MIXED_HT_AND_STANDARD_TABLES" := by
  unfold check_mixed_ht_standard_tables at h
  dsimp only at h
  split at h
  · simp at h
  · split at h
    · simp only [Option.some.injEq] at h
      subst h
      simp [getStr, dictGet?]
    · simp at h

theorem rule_of_order (pq : ParsedQueryEnh) (rows : Option Int)
    (cov : List CoverageRow) (access : Bool) (f : Finding)
    (h : check_order_by_limit_conditional pq rows cov access = some f) :
    getStr f "rule" "" = "ORDER_BY_NO_LIMIT" := by
  unfold check_order_by_limit_conditional at h
  dsimp only at h
  split at h
  · simp at h
  · split at h
    · simp at h
    · split at h
      · simp at h
      · split at h
        · simp only [Option.some.injEq] at h
          subst h
          simp [getStr, dictGet?]
        · simp only [Option.some.injEq] at h
          subst h
          simp [getStr, dictGet?]

theorem zeroShape_checkNoIdxEntry (access : Bool) (ctes : List String)
    (e : CoverageRow) (f : Finding) (hf : f ∈ checkNoIdxEntry access ctes e)
    (hz : zeroShape f) :
    getStr f "table" "" = e.table ∧ e.indexes = [] ∧
      e.index_metadata_source.getD "unknown" ≠ "unknown" := by
  unfold checkNoIdxEntry at hf
  dsimp only at hf
  split at hf
  · simp at hf
  · split at hf
    · simp at hf
    · split at hf
      next hcase1 =>
        split at hf
        next hsrc =>
          simp only [List.mem_singleton] at hf
          subst hf
          exfalso
          simp [zeroShape, getStr, dictGet?] at hz
        next hsrc =>
          simp only [List.mem_singleton] at hf
          subst hf
          refine ⟨by simp [getStr, dictGet?], hcase1.1, hsrc⟩
      next hcase1 =>
        split at hf
        · simp only [List.mem_singleton] at hf
          subst hf
          exfalso
          simp [zeroShape, getStr, dictGet?] at hz
        · simp at hf

theorem zeroShape_mismatchEntry (ctes : List String) (e : CoverageRow)
    (f : Finding) (hf : f ∈ mismatchEntry ctes e) (hz : zeroShape f) :
    getStr f "table" "" = e.table ∧ e.indexes = [] ∧
      e.index_metadata_source.getD "unknown" ≠ "unknown" := by
  unfold mismatchEntry at hf
  dsimp only at hf
  split at hf
  · simp at hf
  · split at hf
    · simp at hf
    · split at hf
      next hidx =>
        split at hf
        next hsrc =>
          simp only [List.mem_singleton] at hf
          subst hf
          exfalso
          simp [zeroShape, getStr, dictGet?] at hz
        next hsrc =>
          simp only [List.mem_singleton] at hf
          subst hf
          refine ⟨by simp [getStr, dictGet?], hidx, hsrc⟩
      next hidx =>
        simp only [List.mem_singleton] at hf
        subst hf
        exfalso
        simp [zeroShape, getStr, dictGet?] at hz

/-- Zero-indexes claims among the step-0/step-1 findings come from a
coverage row with a confirmed index-metadata source and no indexes. -/
theorem zeroShape_base (pq : ParsedQueryEnh) (cov : List CoverageRow)
    (access : Bool) :
    ∀ g ∈ baseFindings pq cov access, zeroShape g →
      ∃ e ∈ cov, getStr g "table" "" = e.table ∧ e.indexes = [] ∧
        e.index_metadata_source.getD "unknown" ≠ "unknown" := by
  intro g hg hzg
  unfold baseFindings at hg
  rcases List.mem_append.mp hg with hg | hg
  · split at hg
    · obtain ⟨e, hemem, hge⟩ := List.mem_flatMap.mp hg
      exact ⟨e, hemem, zeroShape_mismatchEntry _ e g hge hzg⟩
    · simp at hg
  · unfold check_no_index_coverage at hg
    split at hg
    · simp at hg
    · obtain ⟨e, hemem, hge⟩ := List.mem_flatMap.mp hg
      exact ⟨e, hemem, zeroShape_checkNoIdxEntry _ _ e g hge hzg⟩

theorem mem_summaryStage_elim (fs : List Finding) (f : Finding)
    (hf : f ∈ summaryStage fs) :
    f ∈ fs ∨ ∃ a b, f = multiHtSummary a b := by
  unfold summaryStage at hf
  dsimp only at hf
  split at hf
  · split at hf
    · rcases List.mem_cons.mp hf with hf | hf
      · exact Or.inr ⟨_, _, hf⟩
      · exact Or.inl hf
    · exact Or.inl hf
  · exact Or.inl hf

theorem mem_summaryStage_intro (fs : List Finding) (f : Finding)
    (hf : f ∈ fs) : f ∈ summaryStage fs := by
  unfold summaryStage
  dsimp only
  split
  · split
    · exact List.mem_cons_of_mem _ hf
    · exact hf
  · exact hf

/-- Every zero-indexes claim in the pre-ranking findings list comes from a
coverage row that has a confirmed (non-`unknown`) index-metadata source and
an empty index list. -/
theorem zeroShape_preRankCore (pq : ParsedQueryEnh) (cov : List CoverageRow)
    (access : Bool) (rows : Option Int) :
    ∀ f ∈ preRankCore pq cov access rows, zeroShape f →
      ∃ e ∈ cov, getStr f "table" "" = e.table ∧ e.indexes = [] ∧
        e.index_metadata_source.getD "unknown" ≠ "unknown" := by
  have middle : ∀ g ∈ summaryStage (baseFindings pq cov access), zeroShape g →
      ∃ e ∈ cov, getStr g "table" "" = e.table ∧ e.indexes = [] ∧
        e.index_metadata_source.getD "unknown" ≠ "unknown" := by
    intro g hg hzg
    rcases mem_summaryStage_elim _ _ hg with hg | ⟨a, b, rfl⟩
    · exact zeroShape_base pq cov access g hg hzg
    · exfalso
      rcases hzg with h | ⟨h, _⟩ <;>
        rw [rule_of_summary] at h <;> simp at h
  intro f hf hz
  unfold preRankCore at hf
  dsimp only at hf
  rcases hmixed : check_mixed_ht_standard_tables cov (extractCteNames pq)
      with _ | f2 <;> rw [hmixed] at hf <;> dsimp only at hf <;>
    rcases horder : check_order_by_limit_conditional pq rows cov access
      with _ | f1 <;> rw [horder] at hf <;> dsimp only at hf
  · exact middle f hf hz
  · rcases List.mem_append.mp hf with hf | hf
    · exact middle f hf hz
    · simp only [List.mem_singleton] at hf
      subst hf
      exfalso
      rcases hz with h | ⟨h, _⟩ <;>
        rw [rule_of_order _ _ _ _ _ horder] at h <;> simp at h
  · rcases List.mem_append.mp hf with hf | hf
    · exact middle f hf hz
    · simp only [List.mem_singleton] at hf
      subst hf
      exfalso
      rcases hz with h | ⟨h, _⟩ <;>
        rw [rule_of_mixed _ _ _ hmixed] at h <;> simp at h
  · rcases List.mem_append.mp hf with hf | hf
    · rcases List.mem_append.mp hf with hf | hf
      · exact middle f hf hz
      · simp only [List.mem_singleton] at hf
        subst hf
        exfalso
        rcases hz with h | ⟨h, _⟩ <;>
          rw [rule_of_mixed _ _ _ hmixed] at h <;> simp at h
    · simp only [List.mem_singleton] at hf
      subst hf
      exfalso
      rcases hz with h | ⟨h, _⟩ <;>
        rw [rule_of_order _ _ _ _ _ horder] at h <;> simp at h

/-- Core-field transfer from the pre-ranking findings into the post-ranking
state: ranking only ever adds the two `primary_cause_*` keys. -/
theorem rank_post_of_pre (fs : List Finding) (rm : Option RuntimeMetrics) :
    ∀ f ∈ fs, ∃ f' ∈ (rank_primary_cause fs rm).1,
      getStr f' "severity" "" = getStr f "severity" "" ∧
      getStr f' "rule" "" = getStr f "rule" "" ∧
      getStr f' "table" "" = getStr f "table" "" ∧
      dictGet? f' "has_indexes" = dictGet? f "has_indexes" := by
  intro f hf
  by_cases hne : fs = []
  · subst hne; simp at hf
  cases rm with
  | none =>
    rw [(rank_primary_cause_spec fs none).1 rfl]
    exact ⟨f, hf, rfl, rfl, rfl, rfl⟩
  | some r =>
    obtain ⟨i, top, hget, _, hpost, _, hother⟩ :=
      (rank_primary_cause_spec fs (some r)).2.2 r rfl hne
    rw [List.get?_eq_getElem?] at hget
    have hlt : i < fs.length := (List.getElem?_eq_some_iff.mp hget).1
    obtain ⟨j, hj⟩ := List.mem_iff_getElem?.mp hf
    by_cases hji : j = i
    · subst hji
      rw [hget] at hj
      have hftop : f = top := by simpa using hj.symm
      subst hftop
      refine ⟨annotateTop (primaryExplanation r f) (findingScore r f) f, ?_, ?_, ?_, ?_, ?_⟩
      · rw [hpost]
        refine List.mem_iff_getElem?.mpr ⟨j, ?_⟩
        rw [List.getElem?_set]
        simp [hlt]
      · exact getStr_annotateTop _ _ _ _ _ (by decide) (by decide)
      · exact getStr_annotateTop _ _ _ _ _ (by decide) (by decide)
      · exact getStr_annotateTop _ _ _ _ _ (by decide) (by decide)
      · exact dictGet?_annotateTop _ _ _ _ (by decide) (by decide)
    · refine ⟨f, ?_, rfl, rfl, rfl, rfl⟩
      rw [hpost]
      refine List.mem_iff_getElem?.mpr ⟨j, ?_⟩
      rw [List.getElem?_set, if_neg (fun h => hji h.symm)]
      exact hj

/-- Core-field transfer from the post-ranking state back to the pre-ranking
findings list. -/
theorem rank_pre_of_post (fs : List Finding) (rm : Option RuntimeMetrics) :
    ∀ f' ∈ (rank_primary_cause fs rm).1, ∃ f ∈ fs,
      getStr f' "severity" "" = getStr f "severity" "" ∧
      getStr f' "rule" "" = getStr f "rule" "" ∧
      getStr f' "table" "" = getStr f "table" "" ∧
      dictGet? f' "has_indexes" = dictGet? f "has_indexes" := by
  intro f' hf'
  by_cases hne : fs = []
  · subst hne
    simp [rank_primary_cause] at hf'
  cases rm with
  | none =>
    rw [(rank_primary_cause_spec fs none).1 rfl] at hf'
    exact ⟨f', hf', rfl, rfl, rfl, rfl⟩
  | some r =>
    obtain ⟨i, top, hget, _, hpost, _, hother⟩ :=
      (rank_primary_cause_spec fs (some r)).2.2 r rfl hne
    rw [List.get?_eq_getElem?] at hget
    have hlt : i < fs.length := (List.getElem?_eq_some_iff.mp hget).1
    rw [hpost] at hf'
    obtain ⟨j, hj⟩ := List.mem_iff_getElem?.mp hf'
    rw [List.getElem?_set] at hj
    by_cases hji : i = j
    · rw [if_pos hji, if_pos (hji ▸ hlt)] at hj
      have hf'eq : f' = annotateTop (primaryExplanation r top) (findingScore r top) top := by
        simpa using hj.symm
      subst hf'eq
      refine ⟨top, ?_, ?_, ?_, ?_, ?_⟩
      · exact List.mem_iff_getElem?.mpr ⟨i, hget⟩
      · exact getStr_annotateTop _ _ _ _ _ (by decide) (by decide)
      · exact getStr_annotateTop _ _ _ _ _ (by decide) (by decide)
      · exact getStr_annotateTop _ _ _ _ _ (by decide) (by decide)
      · exact dictGet?_annotateTop _ _ _ _ (by decide) (by decide)
    · rw [if_neg hji] at hj
      exact ⟨f', List.mem_iff_getElem?.mpr ⟨j, hj⟩, rfl, rfl, rfl, rfl⟩

/-- The step-1 INFO finding produced for a table with predicates, no
indexes and unknown metadata provenance. -/
theorem info_mem_checkNoIdxEntry (access : Bool) (ctes : List String)
    (e : CoverageRow) (haccess : access = true)
    (hcte : ¬ (ctes.contains (pyUpper (stripQuotes (lastDotPart e.table))) = true))
    (hidx : e.indexes = []) (hpred : e.pred_eq_cols ≠ [])
    (hsrc : e.index_metadata_source.getD "unknown" = "unknown") :
    ∃ f ∈ checkNoIdxEntry access ctes e,
      getStr f "severity" "" = "INFO" ∧
      getStr f "rule" "" = "INDEX_METADATA_UNKNOWN" ∧
      getStr f "table" "" = e.table := by
  subst haccess
  unfold checkNoIdxEntry
  dsimp only
  rw [if_neg hcte]
  rw [if_neg (by simp)]
  rw [if_pos ⟨hidx, hpred⟩, if_pos hsrc]
  refine ⟨_, List.mem_singleton_self _, ?_, ?_, ?_⟩ <;> simp [getStr, dictGet?]

/-- C3: whenever a coverage row lists no indexes while equality-predicate
columns exist, the index-metadata source is unknown, the runtime flags KV
access, the table is not a CTE alias and no other row shares its table
name, `analyze_query_enhanced` (i) emits an INFO metadata-unknown finding
for that table, (ii) never emits a HIGH zero-indexes claim
(`HT_WITHOUT_INDEXES`, or `NO_INDEX_COVERAGE_ON_PREDICATES` with
`has_indexes: False`) for that table, and (iii) emits a zero-indexes claim
only for tables whose coverage row has a confirmed (non-unknown)
index-metadata source. -/
theorem claim3_metadata_unknown_guard (pq : ParsedQueryEnh)
    (meta : List (String × TableInfo)) (cov : List CoverageRow)
    (r : RuntimeMetrics) (entry : CoverageRow)
    (hmem : entry ∈ cov)
    (haccess : r.access_kv_table = true)
    (hidx : entry.indexes = [])
    (hpred : entry.pred_eq_cols ≠ [])
    (hsrc : entry.index_metadata_source.getD "unknown" = "unknown")
    (hcte : ¬ ((extractCteNames pq).contains
      (pyUpper (stripQuotes (lastDotPart entry.table))) = true))
    (huniq : ∀ e ∈ cov, e.table = entry.table → e = entry) :
    (∃ f ∈ (analyze_query_enhanced pq meta cov (some r)).1,
      getStr f "severity" "" = "INFO" ∧
      getStr f "rule" "" = "INDEX_METADATA_UNKNOWN" ∧
      getStr f "table" "" = entry.table) ∧
    (∀ f ∈ (analyze_query_enhanced pq meta cov (some r)).1,
      zeroShape f → getStr f "table" "" ≠ entry.table) ∧
    (∀ f ∈ (analyze_query_enhanced pq meta cov (some r)).1,
      zeroShape f → ∃ e ∈ cov, e.table = getStr f "table" "" ∧
        e.index_metadata_source.getD "unknown" ≠ "unknown") := by
  have hfst : (analyze_query_enhanced pq meta cov (some r)).1 =
      (rank_primary_cause (preRankFindings pq cov (some r)) (some r)).1 := rfl
  refine ⟨?_, ?_, ?_⟩
  · obtain ⟨f, hfmem, hsev, hrule, htab⟩ :=
      info_mem_checkNoIdxEntry r.access_kv_table (extractCteNames pq) entry
        haccess hcte hidx hpred hsrc
    have hf1 : f ∈ check_no_index_coverage cov r.access_kv_table
        (extractCteNames pq) := by
      unfold check_no_index_coverage
      rw [if_neg (by simp [haccess])]
      exact List.mem_flatMap.mpr ⟨entry, hmem, hfmem⟩
    have hfbase : f ∈ baseFindings pq cov r.access_kv_table := by
      unfold baseFindings
      exact List.mem_append_right _ hf1
    have hfsum : f ∈ summaryStage (baseFindings pq cov r.access_kv_table) :=
      mem_summaryStage_intro _ _ hfbase
    have hfpre : f ∈ preRankFindings pq cov (some r) := by
      show f ∈ preRankCore pq cov r.access_kv_table r.rows_produced
      unfold preRankCore
      dsimp only
      rcases hmixed : check_mixed_ht_standard_tables cov (extractCteNames pq)
          with _ | f2 <;>
        rcases horder : check_order_by_limit_conditional pq r.rows_produced
          cov r.access_kv_table with _ | f1
      · exact hfsum
      · exact List.mem_append_left _ hfsum
      · exact List.mem_append_left _ hfsum
      · exact List.mem_append_left _ (List.mem_append_left _ hfsum)
    obtain ⟨f', hf'mem, hsev', hrule', htab', _⟩ :=
      rank_post_of_pre (preRankFindings pq cov (some r)) (some r) f hfpre
    refine ⟨f', by rw [hfst]; exact hf'mem, ?_, ?_, ?_⟩
    · rw [hsev', hsev]
    · rw [hrule', hrule]
    · rw [htab', htab]
  · intro f' hf' hz' hcontra
    rw [hfst] at hf'
    obtain ⟨f, hfpre, _, hrule, htab, hhi⟩ :=
      rank_pre_of_post (preRankFindings pq cov (some r)) (some r) f' hf'
    have hz : zeroShape f := by
      unfold zeroShape at hz' ⊢
      rw [hrule, hhi] at hz'
      exact hz'
    obtain ⟨e, hemem, htabe, _, hsrce⟩ :=
      zeroShape_preRankCore pq cov r.access_kv_table r.rows_produced f hfpre hz
    have hee : e = entry := huniq e hemem (by rw [← htabe, ← htab, hcontra])
    rw [hee] at hsrce
    exact hsrce hsrc
  · intro f' hf' hz'
    rw [hfst] at hf'
    obtain ⟨f, hfpre, _, hrule, htab, hhi⟩ :=
      rank_pre_of_post (preRankFindings pq cov (some r)) (some r) f' hf'
    have hz : zeroShape f := by
      unfold zeroShape at hz' ⊢
      rw [hrule, hhi] at hz'
      exact hz'
    obtain ⟨e, hemem, htabe, _, hsrce⟩ :=
      zeroShape_preRankCore pq cov r.access_kv_table r.rows_produced f hfpre hz
    exact ⟨e, hemem, by rw [htab, htabe], hsrce⟩

/-- C3 witness: instantiating `claim3_metadata_unknown_guard` at a concrete
hybrid table with one equality column, no indexes and unknown provenance. -/
theorem claim3_witness :
    (exEntry ∈ [exEntry] ∧ exMetricsKv.access_kv_table = true ∧
      exEntry.indexes = [] ∧ exEntry.pred_eq_cols ≠ [] ∧
      exEntry.index_metadata_source.getD "unknown" = "unknown" ∧
      ¬ ((extractCteNames exPQEnh).contains
        (pyUpper (stripQuotes (lastDotPart exEntry.table))) = true) ∧
      (∀ e ∈ [exEntry], e.table = exEntry.table → e = exEntry)) ∧
    ((∃ f ∈ (analyze_query_enhanced exPQEnh [] [exEntry] (some exMetricsKv)).1,
      getStr f "severity" "" = "INFO" ∧
      getStr f "rule" "" = "INDEX_METADATA_UNKNOWN" ∧
      getStr f "table" "" = exEntry.table) ∧
    (∀ f ∈ (analyze_query_enhanced exPQEnh [] [exEntry] (some exMetricsKv)).1,
      zeroShape f → getStr f "table" "" ≠ exEntry.table) ∧
    (∀ f ∈ (analyze_query_enhanced exPQEnh [] [exEntry] (some exMetricsKv)).1,
      zeroShape f → ∃ e ∈ [exEntry], e.table = getStr f "table" "" ∧
        e.index_metadata_source.getD "unknown" ≠ "unknown")) :=
  ⟨⟨by decide, by decide, by decide, by decide, by decide, by decide, by decide⟩,
    claim3_metadata_unknown_guard exPQEnh [] [exEntry] exMetricsKv exEntry
      (by decide) (by decide) (by decide) (by decide) (by decide) (by decide)
      (by decide)⟩

end RulesEnh

/-! ## Theorems: unistore rule engine -/

namespace URules

/-- C5 counterexample: a default query (no WHERE clause, no predicates,
no other narrowing construct) receives both rule-0 findings, and the
no-WHERE finding carries severity HIGH, not the MEDIUM the specification
prescribes. -/
theorem claim5_counterexample :
    (analyze_query cexPQU [] []).map (fun f => (f.rule, f.severity)) =
      [("NO_FILTERING_CLAUSES", some "HIGH"),
       ("NO_WHERE_FILTER", some "HIGH")] := by decide

/-- C5 (amended): for every parsed query with no WHERE clause, no IN or
EXISTS, no HAVING and no QUALIFY, `analyze_query` emits the HIGH
`NO_FILTERING_CLAUSES` finding; when additionally no predicates were
extracted it also emits the distinct `NO_WHERE_FILTER` finding, whose
severity is HIGH (the code does not use MEDIUM for it). -/
theorem claim5_no_filtering_rules (pq : ParsedQueryU)
    (meta : List (String × TableMetaU)) (cov : List CoverageU)
    (hw : pq.has_where = false) (he : pq.has_exists = false)
    (hi : pq.has_in = false) (hh : pq.has_having = false)
    (hq : pq.has_qualify = false) :
    ∃ f ∈ analyze_query pq meta cov,
      f.rule = "NO_FILTERING_CLAUSES" ∧ f.severity = some "HIGH" ∧
      (pq.predicates = [] →
        ∃ g ∈ analyze_query pq meta cov,
          g.rule = "NO_WHERE_FILTER" ∧ g.severity = some "HIGH" ∧
            g ≠ f) := by
  have hnar : _has_any_narrowing pq = false := by
    simp [_has_any_narrowing, hw, he, hi, hh, hq]
  have h1 : noFilterSegment pq = [noFilterFinding] := by
    simp [noFilterSegment, hnar]
  refine ⟨noFilterFinding, ?_, rfl, rfl, ?_⟩
  · simp [analyze_query, List.mem_append, h1]
  · intro hpred
    have hmw : _missing_where pq = true := by
      simp [_missing_where, hw, hpred]
    have h2 : noWhereSegment pq = [noWhereFinding] := by
      simp [noWhereSegment, hmw]
    refine ⟨noWhereFinding, ?_, rfl, rfl, by decide⟩
    simp [analyze_query, List.mem_append, h2]

/-- C5 witness: the amended theorem instantiated at the concrete
default query. -/
theorem claim5_witness :
    cexPQU.has_where = false ∧
    (∃ f ∈ analyze_query cexPQU [] [],
      f.rule = "NO_FILTERING_CLAUSES" ∧ f.severity = some "HIGH" ∧
      (cexPQU.predicates = [] →
        ∃ g ∈ analyze_query cexPQU [] [],
          g.rule = "NO_WHERE_FILTER" ∧ g.severity = some "HIGH" ∧
            g ≠ f)) :=
  ⟨rfl, claim5_no_filtering_rules cexPQU [] [] rfl rfl rfl rfl rfl⟩

/-- C6 counterexample: a two-minute CALL statement yields a single
`SLOW_STORED_PROC` finding of severity MEDIUM, so no HIGH-or-above
finding is emitted for it. -/
theorem claim6_counterexample :
    (analyze_stored_proc_performance cexProcMeta none none).map
        (fun f => (f.rule, f.severity)) =
      [("SLOW_STORED_PROC", some "MEDIUM")] := by
  have hts : procTotalSec cexProcMeta = 120 := by
    unfold procTotalSec cexProcMeta
    norm_num
  unfold analyze_stored_proc_performance
  rw [show is_stored_proc_call cexProcMeta.query_text = some "db.proc" from
    by decide]
  dsimp only
  rw [hts]
  rw [if_neg (by norm_num : ¬(120 : Rat) < 60),
    if_neg (by norm_num : ¬(120 : Rat) ≥ 3600),
    if_neg (by norm_num : ¬(120 : Rat) ≥ 1800),
    if_neg (by norm_num : ¬(120 : Rat) ≥ 600),
    if_pos (by norm_num : (120 : Rat) ≥ 60)]
  rfl

/-- C6 (amended): every CALL statement yields exactly one finding from
`analyze_stored_proc_performance`: the HIGH `STORED_PROCEDURE_DETECTED`
architecture finding for durations under 60 s, and otherwise the
`SLOW_STORED_PROC` finding whose severity is CRITICAL at ≥ 3600 s, HIGH
at ≥ 1800 s, and only MEDIUM between 60 s and 1800 s — a HIGH-or-above
finding is therefore not guaranteed for every duration. -/
theorem claim6_call_severity (m : ProcMeta) (cq : Option (List ChildRow))
    (cs : Option (List (String × ChildStat))) (pname : String)
    (h : is_stored_proc_call m.query_text = some pname) :
    ∃ f : UFinding, analyze_stored_proc_performance m cq cs = [f] ∧
      f.rule = (if procTotalSec m < 60 then "STORED_PROCEDURE_DETECTED"
        else "SLOW_STORED_PROC") ∧
      f.severity = some (if procTotalSec m < 60 then "HIGH"
        else if procTotalSec m ≥ 3600 then "CRITICAL"
        else if procTotalSec m ≥ 1800 then "HIGH" else "MEDIUM") := by
  unfold analyze_stored_proc_performance
  rw [h]
  dsimp only
  by_cases h60 : procTotalSec m < 60
  · simp only [if_pos h60]
    exact ⟨_, rfl, rfl, rfl⟩
  · simp only [if_neg h60]
    refine ⟨_, rfl, rfl, ?_⟩
    dsimp only
    by_cases h36 : procTotalSec m ≥ 3600
    · simp only [if_pos h36]
    · simp only [if_neg h36]
      by_cases h18 : procTotalSec m ≥ 1800
      · simp only [if_pos h18]
      · simp only [if_neg h18]
        by_cases h6 : procTotalSec m ≥ 600
        · simp only [if_pos h6]
        · simp only [if_neg h6, if_pos (le_of_not_lt h60)]

/-- C6 witness: the amended theorem instantiated at the two-minute CALL
statement. -/
theorem claim6_witness :
    is_stored_proc_call cexProcMeta.query_text = some "db.proc" ∧
    (∃ f : UFinding,
      analyze_stored_proc_performance cexProcMeta none none = [f] ∧
      f.rule = (if procTotalSec cexProcMeta < 60 then
        "STORED_PROCEDURE_DETECTED" else "SLOW_STORED_PROC") ∧
      f.severity = some (if procTotalSec cexProcMeta < 60 then "HIGH"
        else if procTotalSec cexProcMeta ≥ 3600 then "CRITICAL"
        else if procTotalSec cexProcMeta ≥ 1800 then "HIGH"
        else "MEDIUM")) :=
  ⟨by decide,
    claim6_call_severity cexProcMeta none none "db.proc" (by decide)⟩

/-! ### Sargability of function placement (C8): scanner lemmas -/

theorem lsw_append (a b : List Char) : listStartsWith a (a ++ b) = some b := by
  induction a with
  | nil => rfl
  | cons c cs ih => simp [listStartsWith, ih]

theorem lsw_mem (a : List Char) :
    ∀ s r, listStartsWith a s = some r → ∀ x ∈ r, x ∈ s := by
  induction a with
  | nil =>
    intro s r h x hx
    simp [listStartsWith] at h
    subst h
    exact hx
  | cons c cs ih =>
    intro s r h x hx
    cases s with
    | nil => simp [listStartsWith] at h
    | cons d ds =>
      simp only [listStartsWith] at h
      split at h
      · exact List.mem_cons_of_mem _ (ih ds r h x hx)
      · exact absurd h (by simp)

theorem isPrefixOf_mem {a b : List Char} (h : a.isPrefixOf b = true) :
    ∀ x ∈ a, x ∈ b := by
  intro x hx
  obtain ⟨t, ht⟩ := List.isPrefixOf_iff_prefix.mp h
  rw [← ht]
  exact List.mem_append_left _ hx

theorem containsSub_skip (p : Char) (ps a t : List Char)
    (ha : ∀ c ∈ a, c ≠ p) :
    listContainsSub (p :: ps) (a ++ t) = listContainsSub (p :: ps) t := by
  induction a with
  | nil => rfl
  | cons c cs ih =>
    have hc : c ≠ p := ha c (List.mem_cons_self _ _)
    have ihh := ih (fun x hx => ha x (List.mem_cons_of_mem _ hx))
    have hbe : (p == c) = false := by simp [Ne.symm hc]
    simp only [List.cons_append, listContainsSub, List.isPrefixOf]
    simp [hbe, ihh]

theorem splitFirst_boundary (p : Char) (ps a t : List Char)
    (ha : ∀ c ∈ a, c ≠ p) :
    splitFirst (p :: ps) (a ++ p :: (ps ++ t)) = some a := by
  induction a with
  | nil =>
    show splitFirst (p :: ps) (p :: (ps ++ t)) = some []
    have h1 : listStartsWith (p :: ps) (p :: (ps ++ t)) = some t := by
      have := lsw_append (p :: ps) t
      rwa [List.cons_append] at this
    simp [splitFirst, h1]
  | cons c cs ih =>
    have hc : c ≠ p := ha c (List.mem_cons_self _ _)
    have ihh := ih (fun x hx => ha x (List.mem_cons_of_mem _ hx))
    have h1 : listStartsWith (p :: ps) (c :: (cs ++ p :: (ps ++ t))) = none := by
      simp [listStartsWith, hc]
    simp [splitFirst, h1, ihh]

theorem dropWhile_all_false {q : Char → Bool} {l : List Char}
    (h : ∀ c ∈ l, q c = false) : l.dropWhile q = l := by
  cases l with
  | nil => rfl
  | cons c cs =>
    rw [List.dropWhile_cons, h c (List.mem_cons_self _ _)]
    simp

theorem stripSpaces_id {l : List Char}
    (h : ∀ c ∈ l, c.isWhitespace = false) : stripSpaces l = l := by
  unfold stripSpaces
  rw [dropWhile_all_false h,
    dropWhile_all_false (fun c hc => h c (List.mem_reverse.mp hc)),
    List.reverse_reverse]

theorem mem_of_mem_dropWhile {q : Char → Bool} {l : List Char} {x : Char}
    (h : x ∈ l.dropWhile q) : x ∈ l :=
  (List.dropWhile_sublist q).mem h

theorem headIsParen_mem {s : List Char} (h : headIsParen s = true) :
    '(' ∈ s := by
  unfold headIsParen at h
  rcases hd : s.dropWhile isPySpace with _ | ⟨c, t⟩ <;> rw [hd] at h
  · simp at h
  · dsimp only at h
    have hc : c = '(' := eq_of_beq h
    subst hc
    have hmem : '(' ∈ s.dropWhile isPySpace := by
      rw [hd]
      exact List.mem_cons_self _ _
    exact mem_of_mem_dropWhile hmem

theorem fnSearch_no_paren {s : List Char} (hnp : '(' ∉ s)
    (fn : List Char) (prev : Bool) : fnSearchAux fn prev s = false := by
  induction s generalizing prev with
  | nil => rfl
  | cons c cs ih =>
    have hcs : '(' ∉ cs := fun hx => hnp (List.mem_cons_of_mem _ hx)
    simp only [fnSearchAux]
    rw [ih hcs]
    have hm : (match listStartsWith fn (c :: cs) with
        | some r => headIsParen r
        | none => false) = false := by
      rcases hsw : listStartsWith fn (c :: cs) with _ | r
      · rfl
      · dsimp only
        by_contra hcon
        have hr : headIsParen r = true := by
          revert hcon
          cases headIsParen r <;> simp
        exact hnp (lsw_mem fn _ r hsw '(' (headIsParen_mem hr))
    rw [hm]
    simp

theorem arithTail_op {s : List Char} (h : arithTail s = true) :
    ∃ c ∈ s, isOpChar c = true := by
  unfold arithTail at h
  rcases hd : s.dropWhile isPySpace with _ | ⟨c, rest⟩
  · rw [hd] at h
    simp at h
  · rw [hd] at h
    dsimp only at h
    rw [Bool.and_eq_true] at h
    have hmem : c ∈ s.dropWhile isPySpace := by
      rw [hd]
      exact List.mem_cons_self _ _
    exact ⟨c, mem_of_mem_dropWhile hmem, h.1⟩

theorem arithScan_op {s : List Char} (h : arithScan s = true) :
    ∃ c ∈ s, isOpChar c = true := by
  induction s with
  | nil => simp [arithScan] at h
  | cons c cs ih =>
    simp only [arithScan] at h
    split at h
    · simp at h
    · rw [Bool.or_eq_true] at h
      rcases h with h1 | h1
      · rw [Bool.and_eq_true] at h1
        obtain ⟨d, hd, hop⟩ := arithTail_op h1.2
        exact ⟨d, List.mem_cons_of_mem _ hd, hop⟩
      · obtain ⟨d, hd, hop⟩ := ih h1
        exact ⟨d, List.mem_cons_of_mem _ hd, hop⟩

theorem arithScan_no_op {s : List Char}
    (h : ∀ c ∈ s, isOpChar c = false) : arithScan s = false := by
  by_contra hcon
  have ht : arithScan s = true := by
    revert hcon
    cases arithScan s <;> simp
  obtain ⟨c, hc, hop⟩ := arithScan_op ht
  rw [h c hc] at hop
  exact Bool.false_ne_true hop

/-- Character-level facts about `identChars` used by the sargability
claim. -/
theorem identChars_spec : ∀ c ∈ identChars,
    Char.toUpper c ∈ identChars ∧ c ≠ ' ' ∧ c ≠ '(' ∧
      c.isWhitespace = false ∧ isOpChar c = false := by decide

/-- The 17 recognized function names consist of identifier characters,
are upper-case stable and nonempty. -/
theorem functionNames_spec : ∀ fn ∈ functionNames,
    (∀ c ∈ fn, c ∈ identChars) ∧ fn.map Char.toUpper = fn ∧ fn ≠ [] := by
  decide

/-- A predicate of shape `col = FN('lit')` — the recognized function
wrapping only the literal side — contributes nothing to
`_non_sargable_predicates`. -/
theorem nonSarg_literal_side (fn : List Char) (col lit : String)
    (hfn : fn ∈ functionNames) (hc0 : col.data ≠ [])
    (hcol : ∀ c ∈ col.data, c ∈ identChars)
    (hlit : ∀ c ∈ lit.data, c ∈ identChars)
    (p : PredU)
    (hp : p.raw.data = col.data ++ ' ' :: '=' :: ' ' ::
      (fn ++ '(' :: '\'' :: (lit.data ++ ['\'', ')']))) :
    nonSargEntry p = [] := by
  obtain ⟨hfnid, hfnup, hfnne⟩ := functionNames_spec fn hfn
  have hcolU : ∀ c ∈ col.data.map Char.toUpper, c ∈ identChars := by
    intro c hc
    obtain ⟨d, hd, rfl⟩ := List.mem_map.mp hc
    exact (identChars_spec d (hcol d hd)).1
  have hlitU : ∀ c ∈ lit.data.map Char.toUpper, c ∈ identChars := by
    intro c hc
    obtain ⟨d, hd, rfl⟩ := List.mem_map.mp hc
    exact (identChars_spec d (hlit d hd)).1
  have hru : (pyUpper p.raw).data = col.data.map Char.toUpper ++
      ' ' :: '=' :: ' ' :: (fn ++ '(' :: '\'' ::
        (lit.data.map Char.toUpper ++ ['\'', ')'])) := by
    show p.raw.data.map Char.toUpper = _
    rw [hp]
    simp only [List.map_append, List.map_cons, List.map_nil, hfnup]
    rw [show Char.toUpper ' ' = ' ' from rfl,
      show Char.toUpper '=' = '=' from rfl,
      show Char.toUpper '(' = '(' from rfl,
      show Char.toUpper '\'' = '\'' from rfl,
      show Char.toUpper ')' = ')' from rfl]
  have hmem_all : ∀ c ∈ (pyUpper p.raw).data,
      c ∈ identChars ∨ c ∈ [' ', '=', '(', '\'', ')'] := by
    rw [hru]
    intro c hc
    simp only [List.mem_append, List.mem_cons, List.not_mem_nil,
      or_false] at hc
    rcases hc with h | rfl | rfl | rfl | h | rfl | rfl | h | rfl | rfl
    · exact Or.inl (hcolU c h)
    · exact Or.inr (by decide)
    · exact Or.inr (by decide)
    · exact Or.inr (by decide)
    · exact Or.inl (hfnid c h)
    · exact Or.inr (by decide)
    · exact Or.inr (by decide)
    · exact Or.inl (hlitU c h)
    · exact Or.inr (by decide)
    · exact Or.inr (by decide)
  have harith : arithScan ((pyUpper p.raw).data) = false := by
    apply arithScan_no_op
    intro c hc
    rcases hmem_all c hc with h | h
    · exact (identChars_spec c h).2.2.2.2
    · fin_cases h <;> decide
  have hnsp : ∀ c ∈ col.data.map Char.toUpper, c ≠ ' ' :=
    fun c h => (identChars_spec c (hcolU c h)).2.1
  have hsf : splitFirst (' ' :: '=' :: ' ' :: []) ((pyUpper p.raw).data) =
      some (col.data.map Char.toUpper) := by
    rw [hru]
    exact splitFirst_boundary ' ' ['=', ' '] _ _ hnsp
  have hfos : firstOpSplit sargOps ((pyUpper p.raw).data) =
      some (col.data.map Char.toUpper) := by
    unfold sargOps
    simp only [firstOpSplit]
    rw [hsf]
  have hlso : leftSideOf ((pyUpper p.raw).data) =
      col.data.map Char.toUpper := by
    unfold leftSideOf
    rw [hfos]
    dsimp only
    rw [stripSpaces_id
      (fun c h => (identChars_spec c (hcolU c h)).2.2.2.1)]
    rw [if_neg ?hne]
    case hne =>
      intro hcon
      rw [List.isEmpty_eq_true, List.map_eq_nil] at hcon
      exact hc0 hcon
  have hnp : '(' ∉ col.data.map Char.toUpper :=
    fun h => ((identChars_spec '(' (hcolU '(' h)).2.2.1) rfl
  have hanyfn : (functionNames.any fun fn' =>
      fnSearchAux fn' false (col.data.map Char.toUpper)) = false := by
    rw [List.any_eq_false]
    intro fn' _
    simp [fnSearch_no_paren hnp]
  have hts : ∀ c ∈ fn ++ '(' :: '\'' ::
      (lit.data.map Char.toUpper ++ ['\'', ')']), c ≠ ' ' := by
    intro c h
    simp only [List.mem_append, List.mem_cons, List.not_mem_nil,
      or_false] at h
    rcases h with h | rfl | rfl | h | rfl | rfl
    · exact (identChars_spec c (hfnid c h)).2.1
    · decide
    · decide
    · exact (identChars_spec c (hlitU c h)).2.1
    · decide
    · decide
  have hlike : strContains (pyUpper p.raw) " LIKE " = false := by
    unfold strContains
    rw [show (" LIKE " : String).data =
      ' ' :: 'L' :: 'I' :: 'K' :: 'E' :: ' ' :: [] from rfl]
    rw [hru, containsSub_skip ' ' _ _ _ hnsp]
    simp only [listContainsSub]
    have hP3 : List.isPrefixOf (' ' :: 'L' :: 'I' :: 'K' :: 'E' :: ' ' :: [])
        (' ' :: (fn ++ '(' :: '\'' ::
          (lit.data.map Char.toUpper ++ ['\'', ')']))) = false := by
      by_contra hcon
      have htrue : List.isPrefixOf
          (' ' :: 'L' :: 'I' :: 'K' :: 'E' :: ' ' :: [])
          (' ' :: (fn ++ '(' :: '\'' ::
            (lit.data.map Char.toUpper ++ ['\'', ')']))) = true := by
        revert hcon
        cases List.isPrefixOf (' ' :: 'L' :: 'I' :: 'K' :: 'E' :: ' ' :: [])
          (' ' :: (fn ++ '(' :: '\'' ::
            (lit.data.map Char.toUpper ++ ['\'', ')']))) <;> simp
      simp only [List.isPrefixOf, beq_self_eq_true, Bool.true_and] at htrue
      exact hts ' ' (isPrefixOf_mem htrue ' ' (by decide)) rfl
    have hP4 : listContainsSub
        (' ' :: 'L' :: 'I' :: 'K' :: 'E' :: ' ' :: [])
        (fn ++ '(' :: '\'' ::
          (lit.data.map Char.toUpper ++ ['\'', ')'])) = false := by
      have hsk := containsSub_skip ' ' ('L' :: 'I' :: 'K' :: 'E' :: ' ' :: [])
        (fn ++ '(' :: '\'' :: (lit.data.map Char.toUpper ++ ['\'', ')'])) []
        hts
      rw [List.append_nil] at hsk
      rw [hsk]
      rfl
    rw [hP3, hP4]
    simp
    exact ⟨rfl, rfl⟩
  unfold nonSargEntry
  dsimp only
  rw [hlso, hanyfn, hlike, harith]
  simp

/-- A predicate of shape `FN(col) = 'lit'` — the recognized function
wrapping the column side — contributes exactly its raw text to
`_non_sargable_predicates` (through the function-pattern check alone). -/
theorem nonSarg_column_side (fn : List Char) (col lit : String)
    (hfn : fn ∈ functionNames)
    (hcol : ∀ c ∈ col.data, c ∈ identChars)
    (hlit : ∀ c ∈ lit.data, c ∈ identChars)
    (q : PredU)
    (hq : q.raw.data = fn ++ '(' :: (col.data ++ ')' :: ' ' :: '=' :: ' ' ::
      '\'' :: (lit.data ++ ['\'']))) :
    nonSargEntry q = [q.raw] := by
  obtain ⟨hfnid, hfnup, hfnne⟩ := functionNames_spec fn hfn
  have hcolU : ∀ c ∈ col.data.map Char.toUpper, c ∈ identChars := by
    intro c hc
    obtain ⟨d, hd, rfl⟩ := List.mem_map.mp hc
    exact (identChars_spec d (hcol d hd)).1
  have hlitU : ∀ c ∈ lit.data.map Char.toUpper, c ∈ identChars := by
    intro c hc
    obtain ⟨d, hd, rfl⟩ := List.mem_map.mp hc
    exact (identChars_spec d (hlit d hd)).1
  have hru : (pyUpper q.raw).data = fn ++ '(' ::
      (col.data.map Char.toUpper ++ ')' :: ' ' :: '=' :: ' ' :: '\'' ::
        (lit.data.map Char.toUpper ++ ['\''])) := by
    show q.raw.data.map Char.toUpper = _
    rw [hq]
    simp only [List.map_append, List.map_cons, List.map_nil, hfnup]
    rw [show Char.toUpper ' ' = ' ' from rfl,
      show Char.toUpper '=' = '=' from rfl,
      show Char.toUpper '(' = '(' from rfl,
      show Char.toUpper '\'' = '\'' from rfl,
      show Char.toUpper ')' = ')' from rfl]
  have hashape : (pyUpper q.raw).data =
      (fn ++ '(' :: (col.data.map Char.toUpper ++ [')'])) ++
        ' ' :: '=' :: ' ' :: ('\'' :: (lit.data.map Char.toUpper ++ ['\''])) := by
    rw [hru]
    simp [List.append_assoc]
  have ha_ne_space : ∀ c ∈ fn ++ '(' ::
      (col.data.map Char.toUpper ++ [')']), c ≠ ' ' := by
    intro c h
    simp only [List.mem_append, List.mem_cons, List.not_mem_nil,
      or_false] at h
    rcases h with h | rfl | h | rfl
    · exact (identChars_spec c (hfnid c h)).2.1
    · decide
    · exact (identChars_spec c (hcolU c h)).2.1
    · decide
  have hsf : splitFirst (' ' :: '=' :: ' ' :: []) ((pyUpper q.raw).data) =
      some (fn ++ '(' :: (col.data.map Char.toUpper ++ [')'])) := by
    rw [hashape]
    exact splitFirst_boundary ' ' ['=', ' '] _ _ ha_ne_space
  have hfos : firstOpSplit sargOps ((pyUpper q.raw).data) =
      some (fn ++ '(' :: (col.data.map Char.toUpper ++ [')'])) := by
    unfold sargOps
    simp only [firstOpSplit]
    rw [hsf]
  have hane : fn ++ '(' :: (col.data.map Char.toUpper ++ [')']) ≠ [] := by
    obtain ⟨f0, fs, rfl⟩ := List.exists_cons_of_ne_nil hfnne
    simp
  have hlso : leftSideOf ((pyUpper q.raw).data) =
      fn ++ '(' :: (col.data.map Char.toUpper ++ [')']) := by
    unfold leftSideOf
    rw [hfos]
    dsimp only
    rw [stripSpaces_id ?hws]
    case hws =>
      intro c h
      simp only [List.mem_append, List.mem_cons, List.not_mem_nil,
        or_false] at h
      rcases h with h | rfl | h | rfl
      · exact (identChars_spec c (hfnid c h)).2.2.2.1
      · decide
      · exact (identChars_spec c (hcolU c h)).2.2.2.1
      · decide
    rw [if_neg ?hne]
    case hne =>
      intro hcon
      rw [List.isEmpty_eq_true] at hcon
      exact hane hcon
  have hsearch : fnSearchAux fn false
      (fn ++ '(' :: (col.data.map Char.toUpper ++ [')'])) = true := by
    obtain ⟨f0, fs, rfl⟩ := List.exists_cons_of_ne_nil hfnne
    rw [List.cons_append]
    have hsw : listStartsWith (f0 :: fs) (f0 :: (fs ++
        ('(' :: (col.data.map Char.toUpper ++ [')'])))) =
        some ('(' :: (col.data.map Char.toUpper ++ [')'])) := by
      have := lsw_append (f0 :: fs) ('(' :: (col.data.map Char.toUpper ++ [')']))
      rwa [List.cons_append] at this
    simp only [fnSearchAux]
    rw [hsw]
    dsimp only
    rw [show ∀ X : List Char, headIsParen ('(' :: X) = true from
      fun X => rfl]
    simp
  have hany : (functionNames.any fun fn' => fnSearchAux fn' false
      (fn ++ '(' :: (col.data.map Char.toUpper ++ [')']))) = true := by
    rw [List.any_eq_true]
    exact ⟨fn, hfn, hsearch⟩
  have hts2 : ∀ c ∈ '\'' :: (lit.data.map Char.toUpper ++ ['\'']),
      c ≠ ' ' := by
    intro c h
    simp only [List.mem_append, List.mem_cons, List.not_mem_nil,
      or_false] at h
    rcases h with rfl | h | rfl
    · decide
    · exact (identChars_spec c (hlitU c h)).2.1
    · decide
  have hlike : strContains (pyUpper q.raw) " LIKE " = false := by
    unfold strContains
    rw [show (" LIKE " : String).data =
      ' ' :: 'L' :: 'I' :: 'K' :: 'E' :: ' ' :: [] from rfl]
    rw [hashape, containsSub_skip ' ' _ _ _ ha_ne_space]
    simp only [listContainsSub]
    have hP4 : listContainsSub (' ' :: 'L' :: 'I' :: 'K' :: 'E' :: ' ' :: [])
        (lit.data.map Char.toUpper ++ ['\'']) = false := by
      have hsk := containsSub_skip ' ' ('L' :: 'I' :: 'K' :: 'E' :: ' ' :: [])
        (lit.data.map Char.toUpper ++ ['\'']) []
        (fun c h => hts2 c (List.mem_cons_of_mem _ h))
      rw [List.append_nil] at hsk
      rw [hsk]
      rfl
    rw [hP4]
    simp
    refine ⟨rfl, rfl, ?_, rfl⟩
    exact rfl
  have hmem_all : ∀ c ∈ (pyUpper q.raw).data,
      c ∈ identChars ∨ c ∈ [' ', '=', '(', '\'', ')'] := by
    rw [hru]
    intro c hc
    simp only [List.mem_append, List.mem_cons, List.not_mem_nil,
      or_false] at hc
    rcases hc with h | rfl | h | rfl | rfl | rfl | rfl | rfl | h | rfl
    · exact Or.inl (hfnid c h)
    · exact Or.inr (by decide)
    · exact Or.inl (hcolU c h)
    · exact Or.inr (by decide)
    · exact Or.inr (by decide)
    · exact Or.inr (by decide)
    · exact Or.inr (by decide)
    · exact Or.inr (by decide)
    · exact Or.inl (hlitU c h)
    · exact Or.inr (by decide)
  have harith : arithScan ((pyUpper q.raw).data) = false := by
    apply arithScan_no_op
    intro c hc
    rcases hmem_all c hc with h | h
    · exact (identChars_spec c h).2.2.2.2
    · fin_cases h <;> decide
  unfold nonSargEntry
  dsimp only
  rw [hlso, hany, hlike, harith]
  simp

/-- C8: for a comparison predicate built from an identifier column, a
quoted identifier literal and one of the 17 recognized
case/cast/trim/date functions, the function appearing only in the
right-hand literal operand (`col = FN('lit')`) never triggers the
non-sargable-predicate detection, while the same function wrapping the
left-hand column operand (`FN(col) = 'lit'`) always does. -/
theorem claim8_function_side (fn : List Char) (col lit : String)
    (hfn : fn ∈ functionNames) (hc0 : col.data ≠ [])
    (hcol : ∀ c ∈ col.data, c ∈ identChars)
    (hlit : ∀ c ∈ lit.data, c ∈ identChars)
    (p q : PredU)
    (hp : p.raw.data = col.data ++ ' ' :: '=' :: ' ' ::
      (fn ++ '(' :: '\'' :: (lit.data ++ ['\'', ')'])))
    (hq : q.raw.data = fn ++ '(' :: (col.data ++ ')' :: ' ' :: '=' :: ' ' ::
      '\'' :: (lit.data ++ ['\'']))) :
    (∀ pq : ParsedQueryU, pq.predicates = [p] →
      _non_sargable_predicates pq = []) ∧
    (∀ pq : ParsedQueryU, pq.predicates = [q] →
      _non_sargable_predicates pq = [q.raw]) := by
  constructor
  · intro pq hpq
    unfold _non_sargable_predicates
    rw [hpq]
    simp [nonSarg_literal_side fn col lit hfn hc0 hcol hlit p hp]
  · intro pq hpq
    unfold _non_sargable_predicates
    rw [hpq]
    simp [nonSarg_column_side fn col lit hfn hcol hlit q hq]

/-- C8 witness: the sargability theorem instantiated at
`email = UPPER('x')` and `UPPER(email) = 'x'`. -/
theorem claim8_witness :
    ("UPPER".data ∈ functionNames ∧ ("email" : String).data ≠ [] ∧
      (∀ c ∈ ("email" : String).data, c ∈ identChars) ∧
      (∀ c ∈ ("x" : String).data, c ∈ identChars) ∧
      exPredLit.raw.data = ("email" : String).data ++ ' ' :: '=' :: ' ' ::
        ("UPPER".data ++ '(' :: '\'' ::
          (("x" : String).data ++ ['\'', ')'])) ∧
      exPredCol.raw.data = "UPPER".data ++ '(' ::
        (("email" : String).data ++ ')' :: ' ' :: '=' :: ' ' :: '\'' ::
          (("x" : String).data ++ ['\'']))) ∧
    ((∀ pq : ParsedQueryU, pq.predicates = [exPredLit] →
      _non_sargable_predicates pq = []) ∧
     (∀ pq : ParsedQueryU, pq.predicates = [exPredCol] →
      _non_sargable_predicates pq = [exPredCol.raw])) :=
  ⟨⟨by decide, by decide, by decide, by decide, by decide, by decide⟩,
    claim8_function_side ("UPPER".data) "email" "x" (by decide) (by decide)
      (by decide) (by decide) exPredLit exPredCol (by decide) (by decide)⟩

end URules

end HTAnalysis
